import Mathlib

/-!
# function-cloudflare-azure-nsg: the `RunFunction` handler

A shallow embedding of `fn.go` and a verification of its specification.

The handler is one straight-line function.  It reads `spec.nsgName` from the
observed composite resource, fetches `https://www.cloudflare.com/ips-v4/#`,
scans the body with the regular expression
`\b\d{1,3}\.\d{1,3}\.\d{1,3}\.\d{1,3}\b`, builds one `SecurityRule` and stores
it in the desired composed resources under `"xbuckets-" + nsgName`.

Layout of the embedding.

* `Regex`, `Regex.ends`, `doExecute`, `allMatches`, `FindAllStringIndex`,
  `FindAllString`: Go's `regexp` package restricted to the constructs the
  pattern uses.  Go documents its matching as leftmost-first: the match begins
  as early as possible and, among the matches starting there, is the one a
  backtracking search finds first.  `Regex.ends` lists the candidate ends at a
  start position in backtracking order; `allMatches` is the loop of
  `regexp.(*Regexp).allMatches`.  A text is a sequence of runes and positions
  count runes; every rune the pattern consumes is ASCII, so the extracted
  substrings are the ones Go returns.
* `Value`, `getValue`, `GetString`: the observed composite resource as a JSON
  tree and the field-path getter (`fieldpath.Paved.GetString`).
* `Sdk`, `Net`: the collaborators whose outcome the handler cannot determine:
  the per-resource conversions of function-sdk-go (`resource.AsObject`,
  `resource.AsStruct`, `composed.From`) and `http.Get` followed by
  `ioutil.ReadAll`.  Each is a function returning `Except`.
* `To`, `Fatal`, `GetObservedCompositeResource`,
  `GetDesiredComposedResources`, `SetDesiredComposedResources`: the
  function-sdk-go request and response helpers.
* `RunFunction`: the handler, returning the response together with the trace
  of its side effects (log lines and outbound HTTP requests).

A Go map is an association list; a map received from the wire has pairwise
distinct keys.  The Go loops over maps visit the entries in list order (Go
leaves the order unspecified; it only matters on the failure path of
`SetDesiredComposedResources`).
-/

namespace NsgFunction

/-! ## Regular expressions -/

/-- Abstract syntax of the regular expressions needed for the handler's
pattern: `\d`, a literal rune, `\b`, concatenation and the greedy `x?`. -/
inductive Regex where
  | digit : Regex
  | lit (c : Char) : Regex
  | wordBoundary : Regex
  | cat (a b : Regex) : Regex
  | quest (a : Regex) : Regex

/-- The class `\w` of Go's `\b`: ASCII letters, ASCII digits and underscore. -/
def isWordChar (c : Char) : Bool := c.isAlphanum || c == '_'

/-- Whether the rune at index `i` exists and is a word character. -/
def wordAt (body : List Char) (i : Nat) : Bool :=
  match body[i]? with
  | some c => isWordChar c
  | none => false

/-- Whether the rune at index `i` exists and is an ASCII digit (`\d`). -/
def digitAt (body : List Char) (i : Nat) : Bool :=
  match body[i]? with
  | some c => c.isDigit
  | none => false

/-- The assertion `\b` at position `i`: exactly one of the rune before `i` and
the rune at `i` is a word character (a missing rune counts as non-word). -/
def isWordBoundary (body : List Char) (i : Nat) : Bool :=
  (match i with
   | 0 => false
   | j + 1 => wordAt body j) != wordAt body i

/-- The ends of the matches of a regular expression that start at position
`i`, in the order a backtracking search tries them. -/
def Regex.ends (body : List Char) : Regex → Nat → List Nat
  | .digit, i => if digitAt body i then [i + 1] else []
  | .lit c, i => if body[i]? = some c then [i + 1] else []
  | .wordBoundary, i => if isWordBoundary body i then [i] else []
  | .cat a b, i => (a.ends body i).flatMap (fun m => b.ends body m)
  | .quest a, i => a.ends body i ++ [i]

/-- Scan of the start positions `s, s + 1, ...` (`fuel` of them) for the first
one that has a match; the match reported there is the first in backtracking
order. -/
def search (re : Regex) (body : List Char) : Nat → Nat → Option (Nat × Nat)
  | 0, _ => none
  | fuel + 1, s =>
    match (re.ends body s).head? with
    | some e => some (s, e)
    | none => search re body fuel (s + 1)

/-- Model of `regexp.(*Regexp).doExecute` for an unanchored search from `pos`:
the leftmost-first match that starts at `pos` or later, as the pair of its
start and end. -/
def doExecute (re : Regex) (body : List Char) (pos : Nat) : Option (Nat × Nat) :=
  search re body (body.length + 1 - pos) pos

/-- Model of the loop of `regexp.(*Regexp).allMatches`:
`for pos, i, prevMatchEnd := 0, 0, -1; i < n && pos <= end; { ... }`.
The first argument after `n` bounds the number of iterations. -/
def allMatches (re : Regex) (body : List Char) (n : Nat) :
    Nat → Nat → Nat → Int → List (Nat × Nat)
  | 0, _, _, _ => []
  | fuel + 1, pos, i, prevMatchEnd =>
    if i < n ∧ pos ≤ body.length then
      match doExecute re body pos with
      | none => []
      | some (m0, m1) =>
        let accept : Bool := !(m1 == pos && (m0 : Int) == prevMatchEnd)
        let pos1 : Nat :=
          if m1 = pos then (if pos < body.length then pos + 1 else body.length + 1) else m1
        if accept then
          (m0, m1) :: allMatches re body n fuel pos1 (i + 1) m1
        else
          allMatches re body n fuel pos1 i m1
    else []

/-- The substring `body[s:e]`. -/
def slice (body : List Char) (s e : Nat) : List Char := (body.drop s).take (e - s)

/-- Model of `regexp.(*Regexp).FindAllStringIndex`. -/
def FindAllStringIndex (re : Regex) (s : String) (n : Int) : List (Nat × Nat) :=
  let n1 : Nat := if n < 0 then s.data.length + 1 else n.toNat
  allMatches re s.data n1 (s.data.length + 1) 0 0 (-1)

/-- Model of `regexp.(*Regexp).FindAllString`. -/
def FindAllString (re : Regex) (s : String) (n : Int) : List String :=
  let n1 : Nat := if n < 0 then s.data.length + 1 else n.toNat
  (allMatches re s.data n1 (s.data.length + 1) 0 0 (-1)).map
    (fun m => String.mk (slice s.data m.1 m.2))

/-- The pattern `\d{1,3}`, expanded the way `regexp/syntax` simplifies a
bounded repetition: `\d(\d(\d)?)?`. -/
def d13 : Regex := .cat .digit (.quest (.cat .digit (.quest .digit)))

/-- The handler's pattern `\b\d{1,3}\.\d{1,3}\.\d{1,3}\.\d{1,3}\b`
(`fn.go`, line 85). -/
def re : Regex :=
  .cat .wordBoundary (.cat d13 (.cat (.lit '.') (.cat d13 (.cat (.lit '.')
    (.cat d13 (.cat (.lit '.') (.cat d13 .wordBoundary)))))))

/-- The loop of `fn.go`, lines 88 to 91: every match is appended in turn. -/
def sourceAddressPrefixes (body : String) : List String :=
  (FindAllString re body (-1)).foldl (fun acc m => acc ++ [m]) []

/-! ## Maps -/

/-- Read of a Go map: `m[k]`. -/
def lookupKey {V : Type} (k : String) : List (String × V) → Option V
  | [] => none
  | (k1, v) :: rest => if k1 = k then some v else lookupKey k rest

/-- Assignment to a Go map: `m[k] = v`. -/
def upsert {V : Type} (k : String) (v : V) : List (String × V) → List (String × V)
  | [] => [(k, v)]
  | (k1, v1) :: rest => if k1 = k then (k, v) :: rest else (k1, v1) :: upsert k v rest

/-- The keys of a map. -/
def keys {V : Type} (m : List (String × V)) : List String := m.map Prod.fst

/-! ## The observed composite resource -/

/-- A JSON document, the content of an unstructured resource. -/
inductive Value where
  | null : Value
  | bool (b : Bool) : Value
  | number (n : Int) : Value
  | string (s : String) : Value
  | array (items : List Value) : Value
  | object (fields : List (String × Value)) : Value

/-- Model of `fieldpath.Paved.GetValue` for a path of field segments. -/
def getValue : List String → Value → Except String Value
  | [], v => .ok v
  | f :: rest, .object fields =>
    match lookupKey f fields with
    | some v => getValue rest v
    | none => .error (f ++ ": no such field")
  | f :: _, _ => .error (f ++ ": not an object")

/-- Model of `fieldpath.Paved.GetString`. -/
def GetString (xr : Value) (path : List String) : Except String String :=
  match getValue path xr with
  | .error e => .error e
  | .ok (.string s) => .ok s
  | .ok _ => .error "not a string"

/-- Model of `GetKind`: the string at `kind`, or the empty string. -/
def GetKind (xr : Value) : String :=
  match GetString xr ["kind"] with
  | .ok k => k
  | .error _ => ""

/-! ## The output record -/

/-- The fields of `v1beta1.SecurityRuleParameters_2` the handler sets.  A field
of pointer type is an `Option`. -/
structure SecurityRuleParameters_2 where
  Access : Option String
  DestinationAddressPrefix : Option String
  Direction : Option String
  NetworkSecurityGroupName : Option String
  Priority : Option Nat
  Protocol : Option String
  SourceAddressPrefixes : List String
  SourcePortRange : Option String
  deriving DecidableEq

/-- The record `v1beta1.SecurityRule`: metadata annotations and
`Spec.ForProvider`. -/
structure SecurityRule where
  Annotations : List (String × String)
  ForProvider : SecurityRuleParameters_2
  deriving DecidableEq

/-- The composite literal of `fn.go`, lines 96 to 114. -/
def securityRule (nsgName : String) (addresses : List String) : SecurityRule :=
  { Annotations := [("corssplane.io/external-name", "cloudflare-ip-allow")]
    ForProvider :=
      { Access := some "Allow"
        DestinationAddressPrefix := some "20.100.33.77"
        Direction := some "Inbound"
        NetworkSecurityGroupName := some nsgName
        Priority := some 100
        Protocol := some "Tcp"
        SourceAddressPrefixes := addresses
        SourcePortRange := some "443" } }

/-- The key of the output record: `resource.Name("xbuckets-"+nsgName)`. -/
def resourceName (nsgName : String) : String := "xbuckets-" ++ nsgName

/-! ## Request, response and collaborators -/

/-- Severity of a result. -/
inductive Severity where
  | fatal : Severity
  | warning : Severity
  | normal : Severity
  deriving DecidableEq

/-- A result of a response. -/
structure Result where
  severity : Severity
  message : String
  deriving DecidableEq

/-- The request, as far as the handler reads it: the outcome of decoding the
observed composite resource and the desired composed resources, a map from
resource name to a resource in its wire form `S`. -/
structure RunFunctionRequest (S : Type) where
  observed : Except String Value
  desired : List (String × S)

/-- The response: the desired composed resources and the results. -/
structure RunFunctionResponse (S : Type) where
  desired : List (String × S)
  results : List Result

/-- The conversions of function-sdk-go between the wire form `S` of a desired
resource (`fnv1beta1.Resource`) and its unstructured form `U`
(`resource.DesiredComposed`): `AsObject` is the conversion applied to each
entry by `GetDesiredComposedResources`, `AsStruct` the one applied to each
entry by `SetDesiredComposedResources`, and `From` is `composed.From` on the
typed record.  Each may fail. -/
structure Sdk (S U : Type) where
  AsObject : S → Except String U
  AsStruct : U → Except String S
  From : SecurityRule → Except String U

/-- The answer to an HTTP request: the outcome of reading its body. -/
structure HttpResponse where
  body : Except String String

/-- The network: the outcome of `http.Get` for a URL. -/
structure Net where
  Get : String → Except String HttpResponse

/-- A side effect of the handler. -/
inductive Event where
  | log (msg : String) : Event
  | httpGet (url : String) : Event
  deriving DecidableEq

/-- Model of `errors.Wrapf(err, msg)`. -/
def Wrapf (err : String) (msg : String) : String := msg ++ ": " ++ err

/-- Model of `response.To`: the response starts with the desired state of the
request and no result. -/
def To {S : Type} (req : RunFunctionRequest S) : RunFunctionResponse S :=
  { desired := req.desired, results := [] }

/-- Model of `response.Fatal`: a fatal result is appended. -/
def Fatal {S : Type} (rsp : RunFunctionResponse S) (err : String) : RunFunctionResponse S :=
  { rsp with results := rsp.results ++ [{ severity := .fatal, message := err }] }

/-- Whether a response carries a fatal result. -/
def isFatal {S : Type} (rsp : RunFunctionResponse S) : Bool :=
  rsp.results.any (fun r => decide (r.severity = .fatal))

/-- Model of `request.GetObservedCompositeResource`. -/
def GetObservedCompositeResource {S : Type} (req : RunFunctionRequest S) : Except String Value :=
  req.observed

/-- The loop shared by `GetDesiredComposedResources` and
`SetDesiredComposedResources`: each entry is converted and assigned into the
map `out`; the first conversion error stops the loop, and the map as it then
stands is returned with it. -/
def convertEntries {A B : Type} (conv : A → Except String B) :
    List (String × A) → List (String × B) → List (String × B) × Option String
  | [], out => (out, none)
  | (name, a) :: rest, out =>
    match conv a with
    | .error e => (out, some e)
    | .ok b => convertEntries conv rest (upsert name b out)

/-- Model of `request.GetDesiredComposedResources`: a fresh map with every
desired resource converted by `AsObject`, or the first error. -/
def GetDesiredComposedResources {S U : Type} (sdk : Sdk S U) (req : RunFunctionRequest S) :
    Except String (List (String × U)) :=
  match convertEntries sdk.AsObject req.desired [] with
  | (dcds, none) => .ok dcds
  | (_, some e) => .error e

/-- Model of `response.SetDesiredComposedResources`: every entry is converted
by `AsStruct` and assigned into the resources the response already holds (the
ones `response.To` took from the request); on the first error the function
returns it, leaving the entries assigned so far. -/
def SetDesiredComposedResources {S U : Type} (sdk : Sdk S U) (rsp : RunFunctionResponse S)
    (dcds : List (String × U)) : RunFunctionResponse S × Option String :=
  match convertEntries sdk.AsStruct dcds rsp.desired with
  | (resources, err) => ({ rsp with desired := resources }, err)

/-- The address of the outbound request (`fn.go`, line 72). -/
def ipsURL : String := "https://www.cloudflare.com/ips-v4/#"

/-- The handler `RunFunction` of `fn.go`.  The result is the response and the
trace of side effects in the order they happen.  The field path
`"spec.nsgName"` is given by its two field segments.  Registering the types
with the scheme (line 94) and closing the body (line 77) have no effect on the
response and are left out; the wrapping of `cd` in a `DesiredComposed` is part
of `Sdk.From`. -/
def RunFunction {S U : Type} (sdk : Sdk S U) (net : Net) (req : RunFunctionRequest S) :
    RunFunctionResponse S × List Event :=
  let ev0 : List Event := [Event.log "Running Function"]
  let rsp := To req
  match GetObservedCompositeResource req with
  | .error err =>
    (Fatal rsp (Wrapf err "cannot get observed composite resource from *v1beta1.RunFunctionRequest"), ev0)
  | .ok xr =>
  match GetString xr ["spec", "nsgName"] with
  | .error err =>
    (Fatal rsp (Wrapf err ("cannot read spec.region field of " ++ GetKind xr)), ev0)
  | .ok nsgName =>
  match GetDesiredComposedResources sdk req with
  | .error err =>
    (Fatal rsp (Wrapf err "cannot get desired resources from *v1beta1.RunFunctionRequest"), ev0)
  | .ok desired =>
  let ev1 : List Event := ev0 ++ [Event.httpGet ipsURL]
  match net.Get ipsURL with
  | .error err => (Fatal rsp (Wrapf err "failed to fetch IP addresses from URL"), ev1)
  | .ok resp =>
  match resp.body with
  | .error err => (Fatal rsp (Wrapf err "failed to read response body"), ev1)
  | .ok body =>
  let s := securityRule nsgName (sourceAddressPrefixes body)
  match sdk.From s with
  | .error err =>
    (Fatal rsp (Wrapf err "cannot convert *v1beta1.SecurityRule to *composed.Unstructured"), ev1)
  | .ok cd =>
  let desired1 := upsert (resourceName nsgName) cd desired
  match SetDesiredComposedResources sdk rsp desired1 with
  | (rsp1, some err) =>
    (Fatal rsp1 (Wrapf err "cannot set desired composed resources in *v1beta1.RunFunctionResponse"), ev1)
  | (rsp1, none) => (rsp1, ev1 ++ [Event.log "Added desired nsg"])

/-! ## Sample inputs -/

/-- Sample unstructured resources: a decoded wire resource, or a security rule
converted by `From`. -/
inductive SampleObject where
  | decoded (wire : String) : SampleObject
  | rule (r : SecurityRule) : SampleObject
  deriving DecidableEq

/-- Sample conversions that always succeed and round-trip. -/
def sampleSdk : Sdk String SampleObject :=
  { AsObject := fun x => .ok (.decoded x)
    AsStruct := fun u =>
      match u with
      | .decoded x => .ok x
      | .rule r => .ok ("SecurityRule/" ++ r.ForProvider.NetworkSecurityGroupName.getD "")
    From := fun r => .ok (.rule r) }

/-- The conversions of `lossySdk`, except that a security rule cannot be given
its wire form. -/
def lossyStrictSdk : Sdk (String × Bool) SampleObject :=
  { AsObject := fun x => .ok (.decoded x.1)
    AsStruct := fun u =>
      match u with
      | .decoded x => .ok (x, false)
      | .rule _ => .error "cannot create new Struct"
    From := fun r => .ok (.rule r) }

/-- A network that answers every request with the given body. -/
def sampleNet (body : String) : Net :=
  { Get := fun _ => .ok { body := .ok body } }

/-- A network on which every request fails. -/
def downNet : Net :=
  { Get := fun _ => .error "dial tcp: connection refused" }

/-- A composite resource with the given group name. -/
def sampleXR (nsgName : String) : Value :=
  .object [("kind", .string "XNsg"), ("spec", .object [("nsgName", .string nsgName)])]

/-- A request for the group `ng1` with two desired resources, one of them under
the key of the output record. -/
def sampleRequest : RunFunctionRequest String :=
  { observed := .ok (sampleXR "ng1")
    desired := [("xbuckets-ng1", "old"), ("other", "kept")] }

/-- A request for the group `ng1` whose desired resources lack the key of the
output record. -/
def freshRequest : RunFunctionRequest String :=
  { observed := .ok (sampleXR "ng1")
    desired := [("other", "kept")] }

/-- A request for the group `ng1` whose one desired resource carries connection
details. -/
def detailedRequest : RunFunctionRequest (String × Bool) :=
  { observed := .ok (sampleXR "ng1")
    desired := [("other", ("kept", true))] }

/-- A request whose composite resource has no `spec.nsgName`. -/
def namelessRequest : RunFunctionRequest String :=
  { observed := .ok (.object [("kind", .string "XNsg"), ("spec", .object [])])
    desired := [("other", "kept")] }

/-! ## Specification-side notions -/

/-- Declarative meaning of a regular expression: `re.Matches body s e` says
that `body[s:e]` matches `re` in the context of `body`. -/
def Regex.Matches (body : List Char) : Regex → Nat → Nat → Prop
  | .digit, s, e => digitAt body s = true ∧ e = s + 1
  | .lit c, s, e => body[s]? = some c ∧ e = s + 1
  | .wordBoundary, s, e => isWordBoundary body s = true ∧ e = s
  | .cat a b, s, e => ∃ m, a.Matches body s m ∧ b.Matches body m e
  | .quest a, s, e => a.Matches body s e ∨ e = s

/-- The sequence of all leftmost, non-overlapping matches of `re` in `body`
from position `pos` on, in the order they occur: each span is a match, no
match starts between the end of the previous span (or `pos`) and the start of
the next one, and no match starts after the last span. -/
inductive LeftmostSpans (re : Regex) (body : List Char) : Nat → List (Nat × Nat) → Prop where
  | done (pos : Nat) (hno : ∀ s e, pos ≤ s → ¬ re.Matches body s e) :
      LeftmostSpans re body pos []
  | next (pos s e : Nat) (rest : List (Nat × Nat)) (hle : pos ≤ s)
      (hmatch : re.Matches body s e)
      (hfirst : ∀ t e1, pos ≤ t → t < s → ¬ re.Matches body t e1)
      (hrest : LeftmostSpans re body e rest) :
      LeftmostSpans re body pos ((s, e) :: rest)

/-- A group of one to three ASCII digits. -/
def IsGroup (g : List Char) : Prop :=
  1 ≤ g.length ∧ g.length ≤ 3 ∧ ∀ c ∈ g, c.isDigit = true

/-- A dotted quad: four groups of one to three digits joined by dots. -/
def IsQuadToken (t : List Char) : Prop :=
  ∃ a b c d, IsGroup a ∧ IsGroup b ∧ IsGroup c ∧ IsGroup d ∧
    t = a ++ '.' :: (b ++ '.' :: (c ++ '.' :: d))

/-- A run of `k` digits starting at index `s`. -/
def DigitsAt (body : List Char) (s k : Nat) : Prop :=
  ∀ j, j < k → digitAt body (s + j) = true

/-- The matches of the handler's pattern, spelled out on indices. -/
def QuadAt (body : List Char) (s e : Nat) : Prop :=
  ∃ k1 k2 k3 k4, (1 ≤ k1 ∧ k1 ≤ 3) ∧ (1 ≤ k2 ∧ k2 ≤ 3) ∧ (1 ≤ k3 ∧ k3 ≤ 3) ∧ (1 ≤ k4 ∧ k4 ≤ 3) ∧
    isWordBoundary body s = true ∧
    DigitsAt body s k1 ∧ body[s + k1]? = some '.' ∧
    DigitsAt body (s + k1 + 1) k2 ∧ body[s + k1 + 1 + k2]? = some '.' ∧
    DigitsAt body (s + k1 + 1 + k2 + 1) k3 ∧ body[s + k1 + 1 + k2 + 1 + k3]? = some '.' ∧
    DigitsAt body (s + k1 + 1 + k2 + 1 + k3 + 1) k4 ∧
    e = s + k1 + 1 + k2 + 1 + k3 + 1 + k4 ∧
    isWordBoundary body e = true

theorem mem_ends (body : List Char) (r : Regex) :
    ∀ s e, e ∈ r.ends body s ↔ r.Matches body s e := by
  induction r with
  | digit =>
    intro s e
    by_cases h : digitAt body s = true <;> simp [Regex.ends, Regex.Matches, h]
  | lit c =>
    intro s e
    by_cases h : body[s]? = some c <;> simp [Regex.ends, Regex.Matches, h]
  | wordBoundary =>
    intro s e
    by_cases h : isWordBoundary body s = true <;> simp [Regex.ends, Regex.Matches, h]
  | cat a b iha ihb =>
    intro s e
    simp only [Regex.ends, Regex.Matches, List.mem_flatMap]
    constructor
    · rintro ⟨m, hm, he⟩
      exact ⟨m, (iha s m).1 hm, (ihb m e).1 he⟩
    · rintro ⟨m, hm, he⟩
      exact ⟨m, (iha s m).2 hm, (ihb m e).2 he⟩
  | quest a iha =>
    intro s e
    simp only [Regex.ends, Regex.Matches, List.mem_append, List.mem_singleton]
    rw [iha s e]

theorem d13_matches (body : List Char) (s e : Nat) :
    d13.Matches body s e ↔ ∃ k, (1 ≤ k ∧ k ≤ 3) ∧ DigitsAt body s k ∧ e = s + k := by
  simp only [d13, Regex.Matches, DigitsAt]
  constructor
  · rintro ⟨m, ⟨h0, rfl⟩, h | h⟩
    · obtain ⟨m2, ⟨h1, rfl⟩, h | h⟩ := h
      · obtain ⟨h2, rfl⟩ := h
        refine ⟨3, by omega, ?_, rfl⟩
        intro j hj
        have : j = 0 ∨ j = 1 ∨ j = 2 := by omega
        rcases this with rfl | rfl | rfl
        · exact h0
        · exact h1
        · exact h2
      · subst h
        refine ⟨2, by omega, ?_, rfl⟩
        intro j hj
        have : j = 0 ∨ j = 1 := by omega
        rcases this with rfl | rfl
        · exact h0
        · exact h1
    · subst h
      refine ⟨1, by omega, ?_, rfl⟩
      intro j hj
      have : j = 0 := by omega
      subst this
      exact h0
  · rintro ⟨k, ⟨hk1, hk3⟩, hd, rfl⟩
    refine ⟨s + 1, ⟨hd 0 (by omega), rfl⟩, ?_⟩
    by_cases h1 : k = 1
    · right; omega
    · left
      refine ⟨s + 1 + 1, ⟨hd 1 (by omega), rfl⟩, ?_⟩
      by_cases h2 : k = 2
      · right; omega
      · left
        exact ⟨hd 2 (by omega), by omega⟩

theorem matches_cat (body : List Char) (a b : Regex) (s e : Nat) :
    (Regex.cat a b).Matches body s e ↔ ∃ m, a.Matches body s m ∧ b.Matches body m e :=
  Iff.rfl

theorem matches_lit (body : List Char) (c : Char) (s e : Nat) :
    (Regex.lit c).Matches body s e ↔ body[s]? = some c ∧ e = s + 1 :=
  Iff.rfl

theorem matches_wordBoundary (body : List Char) (s e : Nat) :
    Regex.wordBoundary.Matches body s e ↔ isWordBoundary body s = true ∧ e = s :=
  Iff.rfl

theorem re_matches (body : List Char) (s e : Nat) :
    re.Matches body s e ↔ QuadAt body s e := by
  unfold re
  simp only [matches_cat, matches_lit, matches_wordBoundary, d13_matches, QuadAt]
  constructor
  · rintro ⟨m0, ⟨hb, rfl⟩, m1, ⟨k1, hk1, hd1, rfl⟩, m2, ⟨hp1, rfl⟩, m3, ⟨k2, hk2, hd2, rfl⟩,
      m4, ⟨hp2, rfl⟩, m5, ⟨k3, hk3, hd3, rfl⟩, m6, ⟨hp3, rfl⟩, m7, ⟨k4, hk4, hd4, rfl⟩, hb2, rfl⟩
    exact ⟨k1, k2, k3, k4, hk1, hk2, hk3, hk4, hb, hd1, hp1, hd2, hp2, hd3, hp3, hd4, rfl, hb2⟩
  · rintro ⟨k1, k2, k3, k4, hk1, hk2, hk3, hk4, hb, hd1, hp1, hd2, hp2, hd3, hp3, hd4, rfl, hb2⟩
    exact ⟨s, ⟨hb, rfl⟩, _, ⟨k1, hk1, hd1, rfl⟩, _, ⟨hp1, rfl⟩, _, ⟨k2, hk2, hd2, rfl⟩,
      _, ⟨hp2, rfl⟩, _, ⟨k3, hk3, hd3, rfl⟩, _, ⟨hp3, rfl⟩, _, ⟨k4, hk4, hd4, rfl⟩, hb2, rfl⟩

/-! ## Facts about digits, dots and word boundaries -/

theorem isWordChar_of_isDigit (c : Char) (h : c.isDigit = true) : isWordChar c = true := by
  simp [isWordChar, Char.isAlphanum, h]

theorem wordAt_of_digitAt (body : List Char) (i : Nat) (h : digitAt body i = true) :
    wordAt body i = true := by
  unfold digitAt at h
  unfold wordAt
  cases hc : body[i]? with
  | none => simp [hc] at h
  | some c =>
    simp only [hc] at h
    exact isWordChar_of_isDigit c h

theorem lt_length_of_digitAt (body : List Char) (i : Nat) (h : digitAt body i = true) :
    i < body.length := by
  unfold digitAt at h
  cases hc : body[i]? with
  | none => simp [hc] at h
  | some c =>
    by_contra hlt
    have : body[i]? = none := List.getElem?_eq_none (by omega)
    simp [this] at hc

theorem digitAt_false_of_dot (body : List Char) (i : Nat) (h : body[i]? = some '.') :
    digitAt body i = false := by
  unfold digitAt
  rw [h]
  decide

theorem digitAt_false_of_boundary (body : List Char) (s k : Nat) (hk : 1 ≤ k)
    (hd : DigitsAt body s k) (hb : isWordBoundary body (s + k) = true) :
    digitAt body (s + k) = false := by
  obtain ⟨j, rfl⟩ : ∃ j, k = j + 1 := ⟨k - 1, by omega⟩
  have hw : wordAt body (s + j) = true := wordAt_of_digitAt body _ (hd j (by omega))
  have hb1 : isWordBoundary body ((s + j) + 1) = true := hb
  simp only [isWordBoundary, hw] at hb1
  cases hd2 : digitAt body (s + (j + 1)) with
  | false => rfl
  | true =>
    have hw2 : wordAt body (s + j + 1) = true := wordAt_of_digitAt body _ hd2
    simp [hw2] at hb1

theorem group_end_unique (body : List Char) (s k1 k2 : Nat)
    (h1 : DigitsAt body s k1) (h2 : DigitsAt body s k2)
    (e1 : digitAt body (s + k1) = false) (e2 : digitAt body (s + k2) = false) : k1 = k2 := by
  rcases Nat.lt_trichotomy k1 k2 with h | h | h
  · have := h2 k1 h
    rw [e1] at this
    exact absurd this (by decide)
  · exact h
  · have := h1 k2 h
    rw [e2] at this
    exact absurd this (by decide)

/-- A match of the pattern is determined by its start. -/
theorem quadAt_end_unique (body : List Char) (s e1 e2 : Nat)
    (h1 : QuadAt body s e1) (h2 : QuadAt body s e2) : e1 = e2 := by
  obtain ⟨a1, a2, a3, a4, ha1, ha2, ha3, ha4, -, da1, pa1, da2, pa2, da3, pa3, da4, rfl, ba⟩ := h1
  obtain ⟨b1, b2, b3, b4, hb1, hb2, hb3, hb4, -, db1, pb1, db2, pb2, db3, pb3, db4, rfl, bb⟩ := h2
  have e1 : a1 = b1 := group_end_unique body s a1 b1 da1 db1
    (digitAt_false_of_dot _ _ pa1) (digitAt_false_of_dot _ _ pb1)
  subst e1
  have e2 : a2 = b2 := group_end_unique body _ a2 b2 da2 db2
    (digitAt_false_of_dot _ _ pa2) (digitAt_false_of_dot _ _ pb2)
  subst e2
  have e3 : a3 = b3 := group_end_unique body _ a3 b3 da3 db3
    (digitAt_false_of_dot _ _ pa3) (digitAt_false_of_dot _ _ pb3)
  subst e3
  have e4 : a4 = b4 := group_end_unique body _ a4 b4 da4 db4
    (digitAt_false_of_boundary body _ a4 ha4.1 da4 ba)
    (digitAt_false_of_boundary body _ b4 hb4.1 db4 bb)
  subst e4
  rfl

/-- A match of the pattern is not empty and lies inside the text. -/
theorem quadAt_bounds (body : List Char) (s e : Nat) (h : QuadAt body s e) :
    s + 7 ≤ e ∧ e ≤ s + 15 ∧ e ≤ body.length := by
  obtain ⟨k1, k2, k3, k4, hk1, hk2, hk3, hk4, -, -, -, -, -, -, -, d4, rfl, -⟩ := h
  have := lt_length_of_digitAt body _ (d4 (k4 - 1) (by omega))
  omega

theorem re_matches_bounds (body : List Char) (s e : Nat) (h : re.Matches body s e) :
    s < e ∧ e ≤ body.length := by
  have := quadAt_bounds body s e ((re_matches body s e).1 h)
  omega

theorem re_matches_unique (body : List Char) (s e1 e2 : Nat)
    (h1 : re.Matches body s e1) (h2 : re.Matches body s e2) : e1 = e2 :=
  quadAt_end_unique body s e1 e2 ((re_matches body s e1).1 h1) ((re_matches body s e2).1 h2)

/-! ## The search loops -/

theorem search_none (r : Regex) (body : List Char) :
    ∀ fuel s, search r body fuel s = none →
      ∀ t, s ≤ t → t < s + fuel → r.ends body t = [] := by
  intro fuel
  induction fuel with
  | zero => intro s _ t h1 h2; omega
  | succ fuel ih =>
    intro s h t h1 h2
    unfold search at h
    cases hh : (r.ends body s).head? with
    | some e => simp [hh] at h
    | none =>
      simp only [hh] at h
      by_cases hts : t = s
      · subst hts
        simpa using hh
      · exact ih (s + 1) h t (by omega) (by omega)

theorem search_some (r : Regex) (body : List Char) :
    ∀ fuel s m0 m1, search r body fuel s = some (m0, m1) →
      s ≤ m0 ∧ (r.ends body m0).head? = some m1 ∧
        ∀ t, s ≤ t → t < m0 → r.ends body t = [] := by
  intro fuel
  induction fuel with
  | zero => intro s m0 m1 h; simp [search] at h
  | succ fuel ih =>
    intro s m0 m1 h
    unfold search at h
    cases hh : (r.ends body s).head? with
    | some e =>
      simp only [hh, Option.some.injEq, Prod.mk.injEq] at h
      obtain ⟨rfl, rfl⟩ := h
      exact ⟨le_refl _, hh, fun t h1 h2 => by omega⟩
    | none =>
      simp only [hh] at h
      obtain ⟨h1, h2, h3⟩ := ih (s + 1) m0 m1 h
      refine ⟨by omega, h2, ?_⟩
      intro t ht1 ht2
      by_cases hts : t = s
      · subst hts
        simpa using hh
      · exact h3 t (by omega) ht2

/-- The loop of `allMatches` produces the leftmost non-overlapping matches,
for an expression whose matches are non-empty and inside the text, when the
iteration bound covers the rest of the text and the count limit exceeds the
length of the text. -/
theorem allMatches_spec (r : Regex) (body : List Char) (n : Nat)
    (hb : ∀ s e, r.Matches body s e → s < e ∧ e ≤ body.length)
    (hn : body.length < n) :
    ∀ fuel pos i prev, body.length + 1 ≤ fuel + pos → i ≤ pos →
      LeftmostSpans r body pos (allMatches r body n fuel pos i prev) := by
  intro fuel
  induction fuel with
  | zero =>
    intro pos i prev hf _
    unfold allMatches
    refine LeftmostSpans.done pos ?_
    intro s e hs hm
    have := hb s e hm
    omega
  | succ fuel ih =>
    intro pos i prev hf hi
    unfold allMatches
    by_cases hpos : pos ≤ body.length
    · have hc : i < n ∧ pos ≤ body.length := ⟨by omega, hpos⟩
      rw [if_pos hc]
      cases hx : doExecute r body pos with
      | none =>
        refine LeftmostSpans.done pos ?_
        intro s e hs hm
        have hse := hb s e hm
        have := search_none r body _ pos hx s hs (by omega)
        have hmem := (mem_ends body r s e).2 hm
        rw [this] at hmem
        simp at hmem
      | some m =>
        obtain ⟨m0, m1⟩ := m
        obtain ⟨h1, h2, h3⟩ := search_some r body _ pos m0 m1 hx
        have hmem : m1 ∈ r.ends body m0 := List.mem_of_mem_head? h2
        have hm := (mem_ends body r m0 m1).1 hmem
        have hse := hb m0 m1 hm
        have hne : m1 ≠ pos := by omega
        have hbeq : (m1 == pos) = false := by simpa using hne
        simp only [hbeq, Bool.false_and, Bool.not_false, if_true, if_neg hne]
        refine LeftmostSpans.next pos m0 m1 _ h1 hm ?_ (ih m1 (i + 1) _ (by omega) (by omega))
        intro t e1 ht1 ht2 hmt
        have hmem1 := (mem_ends body r t e1).2 hmt
        rw [h3 t ht1 ht2] at hmem1
        simp at hmem1
    · have hc : ¬ (i < n ∧ pos ≤ body.length) := fun h => hpos h.2
      rw [if_neg hc]
      refine LeftmostSpans.done pos ?_
      intro s e hs hm
      have := hb s e hm
      omega

/-- The leftmost non-overlapping match sequence is unique when a match is
determined by its start. -/
theorem leftmostSpans_unique (r : Regex) (body : List Char)
    (hu : ∀ s e1 e2, r.Matches body s e1 → r.Matches body s e2 → e1 = e2) :
    ∀ pos l1 l2, LeftmostSpans r body pos l1 → LeftmostSpans r body pos l2 → l1 = l2 := by
  intro pos l1 l2 h1
  induction h1 generalizing l2 with
  | done pos hno =>
    intro h2
    cases h2 with
    | done _ _ => rfl
    | next _ s e rest hle hmatch _ _ => exact absurd hmatch (hno s e hle)
  | next pos s e rest hle hmatch hfirst hrest ih =>
    intro h2
    cases h2 with
    | done _ hno => exact absurd hmatch (hno s e hle)
    | next _ s2 e2 rest2 hle2 hmatch2 hfirst2 hrest2 =>
      have hs : s = s2 := by
        rcases Nat.lt_trichotomy s s2 with h | h | h
        · exact absurd hmatch (hfirst2 s e hle h)
        · exact h
        · exact absurd hmatch2 (hfirst s2 e2 hle2 h)
      subst hs
      have he : e = e2 := hu s e e2 hmatch hmatch2
      subst he
      rw [ih rest2 hrest2]

theorem leftmostSpans_mem (r : Regex) (body : List Char) :
    ∀ pos l, LeftmostSpans r body pos l → ∀ m ∈ l, r.Matches body m.1 m.2 := by
  intro pos l h
  induction h with
  | done pos hno => intro m hm; simp at hm
  | next pos s e rest hle hmatch hfirst hrest ih =>
    intro m hm
    rcases List.mem_cons.1 hm with rfl | hm
    · exact hmatch
    · exact ih m hm

/-- A match that starts at or after `pos` is one of the leftmost
non-overlapping matches, unless one of them starts before it and ends after
its start. -/
theorem leftmostSpans_complete (r : Regex) (body : List Char)
    (hu : ∀ s e1 e2, r.Matches body s e1 → r.Matches body s e2 → e1 = e2) :
    ∀ pos l, LeftmostSpans r body pos l → ∀ s e, pos ≤ s → r.Matches body s e →
      (s, e) ∈ l ∨ ∃ m ∈ l, m.1 < s ∧ s < m.2 := by
  intro pos l h
  induction h with
  | done pos hno =>
    intro s e hs hm
    exact absurd hm (hno s e hs)
  | next pos s1 e1 rest hle hmatch hfirst hrest ih =>
    intro s e hs hm
    rcases Nat.lt_trichotomy s s1 with h | h | h
    · exact absurd hm (hfirst s e hs h)
    · subst h
      have := hu s e e1 hm hmatch
      subst this
      exact Or.inl (List.mem_cons_self _ _)
    · by_cases hov : s < e1
      · exact Or.inr ⟨(s1, e1), List.mem_cons_self _ _, h, hov⟩
      · rcases ih s e (by omega) hm with h1 | ⟨m, hm1, hm2⟩
        · exact Or.inl (List.mem_cons_of_mem _ h1)
        · exact Or.inr ⟨m, List.mem_cons_of_mem _ hm1, hm2⟩

/-! ## Substrings -/

theorem slice_append (body : List Char) (s m e : Nat) (h1 : s ≤ m) (h2 : m ≤ e) :
    slice body s e = slice body s m ++ slice body m e := by
  unfold slice
  have h3 : e - s = (m - s) + (e - m) := by omega
  rw [h3, List.take_add, List.drop_drop]
  have h4 : s + (m - s) = m := by omega
  rw [h4]

theorem slice_singleton (body : List Char) (i : Nat) (c : Char) (h : body[i]? = some c) :
    slice body i (i + 1) = [c] := by
  obtain ⟨hlt, hc⟩ := List.getElem?_eq_some.1 h
  unfold slice
  rw [List.drop_eq_getElem_cons hlt]
  simp [hc]

theorem slice_digits (body : List Char) (s k : Nat) (h : DigitsAt body s k) :
    (slice body s (s + k)).length = k ∧ ∀ c ∈ slice body s (s + k), c.isDigit = true := by
  constructor
  · unfold slice
    rw [List.length_take, List.length_drop]
    by_cases hk : k = 0
    · subst hk; simp
    · have := lt_length_of_digitAt body _ (h (k - 1) (by omega))
      have h5 : s + k - s = k := by omega
      rw [h5]
      exact Nat.min_eq_left (by omega)
  · intro c hc
    obtain ⟨j, hj⟩ := List.mem_iff_getElem?.1 hc
    unfold slice at hj
    rw [List.getElem?_take, List.getElem?_drop] at hj
    by_cases hjk : j < s + k - s
    · rw [if_pos hjk] at hj
      have hd := h j (by omega)
      unfold digitAt at hd
      rw [hj] at hd
      exact hd
    · rw [if_neg hjk] at hj
      simp at hj

theorem isGroup_slice (body : List Char) (s k : Nat) (hk : 1 ≤ k ∧ k ≤ 3)
    (h : DigitsAt body s k) : IsGroup (slice body s (s + k)) := by
  obtain ⟨hl, hd⟩ := slice_digits body s k h
  exact ⟨by omega, by omega, hd⟩

/-- The text of a match of the pattern is a dotted quad. -/
theorem quadAt_slice (body : List Char) (s e : Nat) (h : QuadAt body s e) :
    IsQuadToken (slice body s e) := by
  obtain ⟨k1, k2, k3, k4, hk1, hk2, hk3, hk4, -, d1, p1, d2, p2, d3, p3, d4, rfl, -⟩ := h
  refine ⟨slice body s (s + k1), slice body (s + k1 + 1) (s + k1 + 1 + k2),
    slice body (s + k1 + 1 + k2 + 1) (s + k1 + 1 + k2 + 1 + k3),
    slice body (s + k1 + 1 + k2 + 1 + k3 + 1) (s + k1 + 1 + k2 + 1 + k3 + 1 + k4),
    isGroup_slice body _ k1 hk1 d1, isGroup_slice body _ k2 hk2 d2,
    isGroup_slice body _ k3 hk3 d3, isGroup_slice body _ k4 hk4 d4, ?_⟩
  rw [slice_append body s (s + k1) _ (by omega) (by omega),
    slice_append body (s + k1) (s + k1 + 1) _ (by omega) (by omega),
    slice_singleton body _ _ p1,
    slice_append body (s + k1 + 1) (s + k1 + 1 + k2) _ (by omega) (by omega),
    slice_append body (s + k1 + 1 + k2) (s + k1 + 1 + k2 + 1) _ (by omega) (by omega),
    slice_singleton body _ _ p2,
    slice_append body (s + k1 + 1 + k2 + 1) (s + k1 + 1 + k2 + 1 + k3) _ (by omega) (by omega),
    slice_append body (s + k1 + 1 + k2 + 1 + k3) (s + k1 + 1 + k2 + 1 + k3 + 1) _
      (by omega) (by omega),
    slice_singleton body _ _ p3]
  simp

theorem isQuadToken_shape (t : List Char) (h : IsQuadToken t) :
    (∀ c ∈ t, c.isDigit = true ∨ c = '.') ∧ t.count '.' = 3 ∧ 7 ≤ t.length ∧ t.length ≤ 15 := by
  obtain ⟨a, b, c, d, ⟨ha1, ha3, had⟩, ⟨hb1, hb3, hbd⟩, ⟨hc1, hc3, hcd⟩, ⟨hd1, hd3, hdd⟩, rfl⟩ := h
  have nodot : ∀ g : List Char, (∀ x ∈ g, x.isDigit = true) → g.count '.' = 0 := by
    intro g hg
    rw [List.count_eq_zero]
    intro hmem
    exact absurd (hg _ hmem) (by decide)
  refine ⟨?_, ?_, ?_, ?_⟩
  · intro x hx
    simp only [List.mem_append, List.mem_cons] at hx
    rcases hx with hx | rfl | hx | rfl | hx | rfl | hx
    · exact Or.inl (had x hx)
    · exact Or.inr rfl
    · exact Or.inl (hbd x hx)
    · exact Or.inr rfl
    · exact Or.inl (hcd x hx)
    · exact Or.inr rfl
    · exact Or.inl (hdd x hx)
  · simp [List.count_append, List.count_cons, nodot a had, nodot b hbd, nodot c hcd,
      nodot d hdd]
  · simp only [List.length_append, List.length_cons]
    omega
  · simp only [List.length_append, List.length_cons]
    omega

theorem isWordBoundary_eq (body : List Char) (i : Nat) :
    isWordBoundary body i = ((decide (0 < i) && wordAt body (i - 1)) != wordAt body i) := by
  cases i with
  | zero => simp [isWordBoundary]
  | succ j => simp [isWordBoundary]

/-- A match of the pattern has no word character right before it and none right
after it. -/
theorem quadAt_delimited (body : List Char) (s e : Nat) (h : QuadAt body s e) :
    (0 < s → wordAt body (s - 1) = false) ∧ wordAt body e = false := by
  obtain ⟨k1, k2, k3, k4, hk1, hk2, hk3, hk4, b1, d1, -, -, -, -, -, d4, rfl, b2⟩ := h
  constructor
  · intro hs
    have hw : wordAt body s = true := wordAt_of_digitAt body s (by simpa using d1 0 (by omega))
    rw [isWordBoundary_eq, hw] at b1
    simpa [hs] using b1
  · have hd := digitAt_false_of_boundary body _ k4 hk4.1 d4 b2
    have hw : wordAt body (s + k1 + 1 + k2 + 1 + k3 + 1 + (k4 - 1)) = true :=
      wordAt_of_digitAt body _ (d4 (k4 - 1) (by omega))
    rw [isWordBoundary_eq] at b2
    have h6 : s + k1 + 1 + k2 + 1 + k3 + 1 + k4 - 1 = s + k1 + 1 + k2 + 1 + k3 + 1 + (k4 - 1) := by
      omega
    rw [h6, hw] at b2
    simpa using b2

theorem body_split (body : List Char) (s e : Nat) (h : s ≤ e) :
    body = body.take s ++ slice body s e ++ body.drop e := by
  unfold slice
  have h1 : body.drop e = (body.drop s).drop (e - s) := by
    rw [List.drop_drop]
    congr 1
    omega
  rw [h1, List.append_assoc, List.take_append_drop, List.take_append_drop]

theorem getLast_take_not_word (body : List Char) (s : Nat) (hs : s ≤ body.length)
    (h : 0 < s → wordAt body (s - 1) = false) :
    ∀ c, (body.take s).getLast? = some c → isWordChar c = false := by
  intro c hc
  rw [List.getLast?_eq_getElem?, List.length_take, Nat.min_eq_left hs, List.getElem?_take] at hc
  by_cases h0 : 0 < s
  · rw [if_pos (by omega)] at hc
    have := h h0
    unfold wordAt at this
    rw [hc] at this
    exact this
  · rw [if_neg (by omega)] at hc
    simp at hc

theorem head_drop_not_word (body : List Char) (e : Nat) (h : wordAt body e = false) :
    ∀ c, (body.drop e).head? = some c → isWordChar c = false := by
  intro c hc
  have h1 : body[e]? = some c := by
    rw [List.head?_drop] at hc
    exact hc
  unfold wordAt at h
  rw [h1] at h
  exact h

theorem getElem?_mid (p q : List Char) (c : Char) : (p ++ c :: q)[p.length]? = some c := by
  rw [List.getElem?_append_right (le_refl _)]
  simp

theorem digitsAt_mid (p g q : List Char) (hg : ∀ c ∈ g, c.isDigit = true) :
    DigitsAt (p ++ g ++ q) p.length g.length := by
  intro j hj
  unfold digitAt
  have h1 : (p ++ g ++ q)[p.length + j]? = some g[j] := by
    rw [List.append_assoc, List.getElem?_append_right (by omega)]
    have h2 : p.length + j - p.length = j := by omega
    rw [h2, List.getElem?_append_left hj, List.getElem?_eq_getElem hj]
  rw [h1]
  exact hg _ (List.getElem_mem _)

theorem wordAt_mid (p q : List Char) (c : Char) : wordAt (p ++ c :: q) p.length = isWordChar c := by
  unfold wordAt
  rw [getElem?_mid]

theorem wordAt_end (p : List Char) : wordAt p p.length = false := by
  unfold wordAt
  rw [List.getElem?_eq_none (le_refl _)]

/-- A dotted quad with no word character right before it and none right after
it is a match of the pattern. -/
theorem quadAt_of_token (pre tok post : List Char) (ht : IsQuadToken tok)
    (hpre : ∀ c, pre.getLast? = some c → isWordChar c = false)
    (hpost : ∀ c, post.head? = some c → isWordChar c = false) :
    QuadAt (pre ++ tok ++ post) pre.length (pre.length + tok.length) := by
  obtain ⟨a, b, c, d, ⟨ha1, ha3, had⟩, ⟨hb1, hb3, hbd⟩, ⟨hc1, hc3, hcd⟩, ⟨hd1, hd3, hdd⟩, rfl⟩ := ht
  refine ⟨a.length, b.length, c.length, d.length, ⟨ha1, ha3⟩, ⟨hb1, hb3⟩, ⟨hc1, hc3⟩,
    ⟨hd1, hd3⟩, ?_, ?_, ?_, ?_, ?_, ?_, ?_, ?_, ?_, ?_⟩
  · -- the boundary before the token
    rw [isWordBoundary_eq]
    have hafter : wordAt (pre ++ (a ++ '.' :: (b ++ '.' :: (c ++ '.' :: d))) ++ post)
        pre.length = true := by
      obtain ⟨x, a1, rfl⟩ : ∃ x a1, a = x :: a1 := by
        cases a with
        | nil => simp at ha1
        | cons x a1 => exact ⟨x, a1, rfl⟩
      have h1 : pre ++ (x :: a1 ++ '.' :: (b ++ '.' :: (c ++ '.' :: d))) ++ post
          = pre ++ x :: (a1 ++ '.' :: (b ++ '.' :: (c ++ '.' :: d)) ++ post) := by simp
      rw [h1, wordAt_mid]
      exact isWordChar_of_isDigit x (had x (List.mem_cons_self _ _))
    rw [hafter]
    rcases List.eq_nil_or_concat pre with rfl | ⟨pre1, x, rfl⟩
    · simp
    · rw [List.concat_eq_append] at hpre ⊢
      have h1 : pre1 ++ [x] ++ (a ++ '.' :: (b ++ '.' :: (c ++ '.' :: d))) ++ post
          = pre1 ++ x :: ((a ++ '.' :: (b ++ '.' :: (c ++ '.' :: d))) ++ post) := by simp
      have h2 : (pre1 ++ [x]).length - 1 = pre1.length := by simp
      rw [h1, h2, wordAt_mid, hpre x (by simp)]
      simp
  · have h1 : pre ++ (a ++ '.' :: (b ++ '.' :: (c ++ '.' :: d))) ++ post
        = pre ++ a ++ ('.' :: (b ++ '.' :: (c ++ '.' :: d)) ++ post) := by simp
    rw [h1]
    exact digitsAt_mid pre a _ had
  · have h1 : pre ++ (a ++ '.' :: (b ++ '.' :: (c ++ '.' :: d))) ++ post
        = (pre ++ a) ++ '.' :: ((b ++ '.' :: (c ++ '.' :: d)) ++ post) := by simp
    have h2 : pre.length + a.length = (pre ++ a).length := by
      simp only [List.length_append, List.length_cons, List.length_nil]
    rw [h1, h2]
    exact getElem?_mid _ _ _
  · have h1 : pre ++ (a ++ '.' :: (b ++ '.' :: (c ++ '.' :: d))) ++ post
        = (pre ++ a ++ ['.']) ++ b ++ ('.' :: (c ++ '.' :: d) ++ post) := by simp
    have h2 : pre.length + a.length + 1 = (pre ++ a ++ ['.']).length := by
      simp only [List.length_append, List.length_cons, List.length_nil]
    rw [h1, h2]
    exact digitsAt_mid _ b _ hbd
  · have h1 : pre ++ (a ++ '.' :: (b ++ '.' :: (c ++ '.' :: d))) ++ post
        = (pre ++ a ++ ['.'] ++ b) ++ '.' :: ((c ++ '.' :: d) ++ post) := by simp
    have h2 : pre.length + a.length + 1 + b.length = (pre ++ a ++ ['.'] ++ b).length := by
      simp only [List.length_append, List.length_cons, List.length_nil]
    rw [h1, h2]
    exact getElem?_mid _ _ _
  · have h1 : pre ++ (a ++ '.' :: (b ++ '.' :: (c ++ '.' :: d))) ++ post
        = (pre ++ a ++ ['.'] ++ b ++ ['.']) ++ c ++ ('.' :: d ++ post) := by simp
    have h2 : pre.length + a.length + 1 + b.length + 1
        = (pre ++ a ++ ['.'] ++ b ++ ['.']).length := by
      simp only [List.length_append, List.length_cons, List.length_nil]
    rw [h1, h2]
    exact digitsAt_mid _ c _ hcd
  · have h1 : pre ++ (a ++ '.' :: (b ++ '.' :: (c ++ '.' :: d))) ++ post
        = (pre ++ a ++ ['.'] ++ b ++ ['.'] ++ c) ++ '.' :: (d ++ post) := by simp
    have h2 : pre.length + a.length + 1 + b.length + 1 + c.length
        = (pre ++ a ++ ['.'] ++ b ++ ['.'] ++ c).length := by
      simp only [List.length_append, List.length_cons, List.length_nil]
    rw [h1, h2]
    exact getElem?_mid _ _ _
  · have h1 : pre ++ (a ++ '.' :: (b ++ '.' :: (c ++ '.' :: d))) ++ post
        = (pre ++ a ++ ['.'] ++ b ++ ['.'] ++ c ++ ['.']) ++ d ++ post := by simp
    have h2 : pre.length + a.length + 1 + b.length + 1 + c.length + 1
        = (pre ++ a ++ ['.'] ++ b ++ ['.'] ++ c ++ ['.']).length := by
      simp only [List.length_append, List.length_cons, List.length_nil]
    rw [h1, h2]
    exact digitsAt_mid _ d _ hdd
  · simp only [List.length_append, List.length_cons]
    omega
  · -- the boundary after the token
    rw [isWordBoundary_eq]
    have hbefore : wordAt (pre ++ (a ++ '.' :: (b ++ '.' :: (c ++ '.' :: d))) ++ post)
        (pre.length + (a ++ '.' :: (b ++ '.' :: (c ++ '.' :: d))).length - 1) = true := by
      rcases List.eq_nil_or_concat d with rfl | ⟨d1, x, rfl⟩
      · simp at hd1
      · rw [List.concat_eq_append] at hdd ⊢
        have h1 : pre ++ (a ++ '.' :: (b ++ '.' :: (c ++ '.' :: (d1 ++ [x])))) ++ post
            = (pre ++ a ++ ['.'] ++ b ++ ['.'] ++ c ++ ['.'] ++ d1) ++ x :: post := by simp
        have h2 : pre.length + (a ++ '.' :: (b ++ '.' :: (c ++ '.' :: (d1 ++ [x])))).length - 1
            = (pre ++ a ++ ['.'] ++ b ++ ['.'] ++ c ++ ['.'] ++ d1).length := by
          simp only [List.length_append, List.length_cons, List.length_nil]
          omega
        rw [h1, h2, wordAt_mid]
        exact isWordChar_of_isDigit x (hdd x (by simp))
    have hafter : wordAt (pre ++ (a ++ '.' :: (b ++ '.' :: (c ++ '.' :: d))) ++ post)
        (pre.length + (a ++ '.' :: (b ++ '.' :: (c ++ '.' :: d))).length) = false := by
      have h2 : pre.length + (a ++ '.' :: (b ++ '.' :: (c ++ '.' :: d))).length
          = (pre ++ (a ++ '.' :: (b ++ '.' :: (c ++ '.' :: d)))).length := by simp
      rw [h2]
      cases post with
      | nil =>
        rw [List.append_nil]
        exact wordAt_end _
      | cons y post1 =>
        rw [wordAt_mid]
        exact hpost y (by simp)
    rw [hbefore, hafter]
    have h3 : 0 < pre.length + (a ++ '.' :: (b ++ '.' :: (c ++ '.' :: d))).length := by
      simp only [List.length_append, List.length_cons]
      omega
    simp [h3]

theorem slice_mid (pre tok post : List Char) :
    slice (pre ++ tok ++ post) pre.length (pre.length + tok.length) = tok := by
  unfold slice
  have h1 : pre.length + tok.length - pre.length = tok.length := by omega
  rw [h1, List.append_assoc, List.drop_left, List.take_left]

/-! ## The extraction -/

theorem findAllStringIndex_spec (body : String) :
    LeftmostSpans re body.data 0 (FindAllStringIndex re body (-1)) := by
  show LeftmostSpans re body.data 0
    (allMatches re body.data (if (-1 : Int) < 0 then body.data.length + 1 else (-1 : Int).toNat)
      (body.data.length + 1) 0 0 (-1))
  rw [if_pos (by decide)]
  exact allMatches_spec re body.data _ (re_matches_bounds body.data) (by omega) _ 0 0 _
    (by omega) (le_refl _)

theorem foldl_append_singleton (l : List String) :
    ∀ acc : List String, l.foldl (fun acc m => acc ++ [m]) acc = acc ++ l := by
  induction l with
  | nil => intro acc; simp
  | cons x xs ih => intro acc; simp [ih]

theorem sourceAddressPrefixes_eq (body : String) :
    sourceAddressPrefixes body
      = (FindAllStringIndex re body (-1)).map (fun m => String.mk (slice body.data m.1 m.2)) := by
  unfold sourceAddressPrefixes
  rw [foldl_append_singleton]
  rfl

/-! ## Claims about the extraction -/

/-- C1: for every response body the address list built by `RunFunction` is the
sequence of all leftmost, non-overlapping substrings of the body that match the
pattern, in the order they occur and with repetitions kept: the list is the
text of a sequence of spans satisfying `LeftmostSpans`, and every sequence of
spans satisfying it gives the same list.  For `"1.2.3.4 and 5.6.7.8 end"` the
list is `["1.2.3.4", "5.6.7.8"]` and for `"1.2.3.4 1.2.3.4"` it is
`["1.2.3.4", "1.2.3.4"]`. -/
theorem address_list_is_leftmost_nonoverlapping_matches :
    (∀ body : String, ∃ spans, LeftmostSpans re body.data 0 spans ∧
      sourceAddressPrefixes body = spans.map (fun m => String.mk (slice body.data m.1 m.2))) ∧
    (∀ (body : String) (spans : List (Nat × Nat)), LeftmostSpans re body.data 0 spans →
      sourceAddressPrefixes body = spans.map (fun m => String.mk (slice body.data m.1 m.2))) ∧
    sourceAddressPrefixes "1.2.3.4 and 5.6.7.8 end" = ["1.2.3.4", "5.6.7.8"] ∧
    sourceAddressPrefixes "1.2.3.4 1.2.3.4" = ["1.2.3.4", "1.2.3.4"] := by
  refine ⟨?_, ?_, by decide, by decide⟩
  · intro body
    exact ⟨_, findAllStringIndex_spec body, sourceAddressPrefixes_eq body⟩
  · intro body spans h
    rw [sourceAddressPrefixes_eq,
      leftmostSpans_unique re body.data (re_matches_unique body.data) 0 _ _
        (findAllStringIndex_spec body) h]

theorem address_list_is_leftmost_nonoverlapping_matches_witness :
    LeftmostSpans re "1.2.3.4 x".data 0 [(0, 7)] ∧
    sourceAddressPrefixes "1.2.3.4 x"
      = [(0, 7)].map (fun m => String.mk (slice "1.2.3.4 x".data m.1 m.2)) :=
  have h : LeftmostSpans re "1.2.3.4 x".data 0 [(0, 7)] := by
    have h1 := findAllStringIndex_spec "1.2.3.4 x"
    have h2 : FindAllStringIndex re "1.2.3.4 x" (-1) = [(0, 7)] := by decide
    rw [h2] at h1
    exact h1
  ⟨h, address_list_is_leftmost_nonoverlapping_matches.2.1 "1.2.3.4 x" [(0, 7)] h⟩

/-- C8 as stated fails: in `"1.2.3.4.5"` the token `"2.3.4.5"` is four digit
groups joined by dots, with the non-word character `.` before it and the end of
the text after it, and it is not extracted. -/
theorem delimited_token_not_extracted :
    IsQuadToken "2.3.4.5".data ∧
    (∀ c, "1.".data.getLast? = some c → isWordChar c = false) ∧
    (∀ c, "".data.head? = some c → isWordChar c = false) ∧
    String.mk ("1.".data ++ "2.3.4.5".data ++ "".data) = "1.2.3.4.5" ∧
    sourceAddressPrefixes "1.2.3.4.5" = ["1.2.3.4"] ∧
    "2.3.4.5" ∉ sourceAddressPrefixes "1.2.3.4.5" := by
  refine ⟨⟨['2'], ['3'], ['4'], ['5'], ?_, ?_, ?_, ?_, rfl⟩, ?_, ?_, by decide, by decide,
    by decide⟩
  · exact ⟨by decide, by decide, by decide⟩
  · exact ⟨by decide, by decide, by decide⟩
  · exact ⟨by decide, by decide, by decide⟩
  · exact ⟨by decide, by decide, by decide⟩
  · intro c hc
    have : c = '.' := by
      have h2 : "1.".data.getLast? = some '.' := by decide
      rw [h2] at hc
      exact (Option.some.inj hc).symm
    subst this
    decide
  · intro c hc
    have h2 : "".data.head? = none := by decide
    rw [h2] at hc
    exact Option.noConfusion hc

/-- C8, amended: the extraction performs no validation of octet values.  Every
token of four digit groups of length 1 to 3 joined by dots, with no word
character right before it and none right after it, is extracted verbatim at
its position, unless an extracted match that starts before the token ends
after the token's first character.  The body `"999.999.999.999"` yields
`["999.999.999.999"]` and `"x 256.0.0.300 y"` yields `["256.0.0.300"]`. -/
theorem delimited_token_extracted_unless_overlapped :
    (∀ pre tok post : List Char, IsQuadToken tok →
      (∀ c, pre.getLast? = some c → isWordChar c = false) →
      (∀ c, post.head? = some c → isWordChar c = false) →
      ((pre.length, pre.length + tok.length)
          ∈ FindAllStringIndex re (String.mk (pre ++ tok ++ post)) (-1) ∧
        String.mk tok ∈ sourceAddressPrefixes (String.mk (pre ++ tok ++ post))) ∨
      ∃ m ∈ FindAllStringIndex re (String.mk (pre ++ tok ++ post)) (-1),
        m.1 < pre.length ∧ pre.length < m.2) ∧
    sourceAddressPrefixes "999.999.999.999" = ["999.999.999.999"] ∧
    sourceAddressPrefixes "x 256.0.0.300 y" = ["256.0.0.300"] := by
  refine ⟨?_, by decide, by decide⟩
  intro pre tok post ht hpre hpost
  have hq := quadAt_of_token pre tok post ht hpre hpost
  have hm := (re_matches (pre ++ tok ++ post) _ _).2 hq
  have hspec := findAllStringIndex_spec (String.mk (pre ++ tok ++ post))
  rcases leftmostSpans_complete re (pre ++ tok ++ post) (re_matches_unique _) 0 _ hspec
    pre.length (pre.length + tok.length) (Nat.zero_le _) hm with h | h
  · left
    refine ⟨h, ?_⟩
    rw [sourceAddressPrefixes_eq]
    refine List.mem_map.2 ⟨(pre.length, pre.length + tok.length), h, ?_⟩
    show String.mk (slice (pre ++ tok ++ post) pre.length (pre.length + tok.length)) = String.mk tok
    rw [slice_mid]
  · right
    exact h

theorem delimited_token_extracted_unless_overlapped_witness :
    ((2, 13) ∈ FindAllStringIndex re "x 256.0.0.300 y" (-1) ∧
        "256.0.0.300" ∈ sourceAddressPrefixes "x 256.0.0.300 y") ∨
      ∃ m ∈ FindAllStringIndex re "x 256.0.0.300 y" (-1), m.1 < 2 ∧ 2 < m.2 :=
  delimited_token_extracted_unless_overlapped.1 "x ".data "256.0.0.300".data " y".data
    ⟨['2', '5', '6'], ['0'], ['0'], ['3', '0', '0'],
      ⟨by decide, by decide, by decide⟩, ⟨by decide, by decide, by decide⟩,
      ⟨by decide, by decide, by decide⟩, ⟨by decide, by decide, by decide⟩, rfl⟩
    (fun c hc => by
      have h2 : "x ".data.getLast? = some ' ' := by decide
      rw [h2] at hc
      rw [← Option.some.inj hc]
      decide)
    (fun c hc => by
      have h2 : " y".data.head? = some ' ' := by decide
      rw [h2] at hc
      rw [← Option.some.inj hc]
      decide)

/-- C10: every extracted token consists only of ASCII digits and exactly three
dots, has length 7 to 15, and occurs in the body with no word character right
before it and none right after it.  So `"173.245.48.0/20"` yields
`["173.245.48.0"]`, `"1234.1.1.1"` and `"1.2.3.4567"` yield nothing, and
`"1.2.3.4.5"` yields `["1.2.3.4"]`. -/
theorem extracted_tokens_are_delimited_dotted_quads :
    (∀ body tok : String, tok ∈ sourceAddressPrefixes body →
      (∀ c ∈ tok.data, c.isDigit = true ∨ c = '.') ∧ tok.data.count '.' = 3 ∧
      7 ≤ tok.length ∧ tok.length ≤ 15 ∧
      ∃ pre post, body.data = pre ++ tok.data ++ post ∧
        (∀ c, pre.getLast? = some c → isWordChar c = false) ∧
        (∀ c, post.head? = some c → isWordChar c = false)) ∧
    sourceAddressPrefixes "173.245.48.0/20" = ["173.245.48.0"] ∧
    sourceAddressPrefixes "1234.1.1.1" = [] ∧
    sourceAddressPrefixes "1.2.3.4567" = [] ∧
    sourceAddressPrefixes "1.2.3.4.5" = ["1.2.3.4"] := by
  refine ⟨?_, by decide, by decide, by decide, by decide⟩
  intro body tok htok
  rw [sourceAddressPrefixes_eq] at htok
  obtain ⟨m, hm, rfl⟩ := List.mem_map.1 htok
  have hmatch := leftmostSpans_mem re body.data 0 _ (findAllStringIndex_spec body) m hm
  have hq := (re_matches body.data m.1 m.2).1 hmatch
  have hshape := isQuadToken_shape _ (quadAt_slice body.data m.1 m.2 hq)
  have hb := quadAt_bounds body.data m.1 m.2 hq
  have hd := quadAt_delimited body.data m.1 m.2 hq
  refine ⟨hshape.1, hshape.2.1, hshape.2.2.1, hshape.2.2.2, body.data.take m.1,
    body.data.drop m.2, body_split body.data m.1 m.2 (by omega), ?_, ?_⟩
  · exact getLast_take_not_word body.data m.1 (by omega) hd.1
  · exact head_drop_not_word body.data m.2 hd.2

theorem extracted_tokens_are_delimited_dotted_quads_witness :
    (∀ c ∈ "173.245.48.0".data, c.isDigit = true ∨ c = '.') ∧
      "173.245.48.0".data.count '.' = 3 ∧
      7 ≤ "173.245.48.0".length ∧ "173.245.48.0".length ≤ 15 ∧
      ∃ pre post, "173.245.48.0/20".data = pre ++ "173.245.48.0".data ++ post ∧
        (∀ c, pre.getLast? = some c → isWordChar c = false) ∧
        (∀ c, post.head? = some c → isWordChar c = false) :=
  extracted_tokens_are_delimited_dotted_quads.1 "173.245.48.0/20" "173.245.48.0" (by decide)

/-! ## Maps -/

theorem lookupKey_upsert_self {V : Type} (k : String) (v : V) (m : List (String × V)) :
    lookupKey k (upsert k v m) = some v := by
  induction m with
  | nil => simp [upsert, lookupKey]
  | cons x rest ih =>
    obtain ⟨k1, v1⟩ := x
    by_cases h : k1 = k
    · simp [upsert, lookupKey, h]
    · simp [upsert, lookupKey, h, ih]

theorem lookupKey_upsert_ne {V : Type} (k k2 : String) (v : V) (m : List (String × V))
    (hne : k2 ≠ k) : lookupKey k2 (upsert k v m) = lookupKey k2 m := by
  induction m with
  | nil => simp [upsert, lookupKey, Ne.symm hne]
  | cons x rest ih =>
    obtain ⟨k1, v1⟩ := x
    by_cases h : k1 = k
    · subst h
      simp [upsert, lookupKey, Ne.symm hne]
    · by_cases h2 : k1 = k2
      · subst h2
        simp [upsert, lookupKey, h]
      · simp [upsert, lookupKey, h, h2, ih]

theorem upsert_of_not_mem {V : Type} (k : String) (v : V) (m : List (String × V))
    (h : k ∉ keys m) : upsert k v m = m ++ [(k, v)] := by
  induction m with
  | nil => simp [upsert]
  | cons x rest ih =>
    obtain ⟨k1, v1⟩ := x
    simp only [keys, List.map_cons, List.mem_cons, not_or] at h
    have h1 : k1 ≠ k := fun h2 => h.1 h2.symm
    simp only [upsert, if_neg h1, List.cons_append]
    rw [ih h.2]

theorem keys_upsert_of_mem {V : Type} (k : String) (v : V) (m : List (String × V))
    (h : k ∈ keys m) : keys (upsert k v m) = keys m := by
  induction m with
  | nil => simp [keys] at h
  | cons x rest ih =>
    obtain ⟨k1, v1⟩ := x
    by_cases h1 : k1 = k
    · simp [upsert, keys, h1]
    · simp only [keys, List.map_cons, List.mem_cons] at h
      have h2 : k ∈ keys rest := by
        rcases h with h | h
        · exact absurd h.symm h1
        · exact h
      have := ih h2
      simp only [keys] at this
      simp [upsert, keys, h1, this]

theorem keys_upsert_of_not_mem {V : Type} (k : String) (v : V) (m : List (String × V))
    (h : k ∉ keys m) : keys (upsert k v m) = keys m ++ [k] := by
  rw [upsert_of_not_mem k v m h]
  simp [keys]

theorem mem_keys_upsert {V : Type} (k : String) (v : V) (m : List (String × V)) :
    k ∈ keys (upsert k v m) := by
  by_cases h : k ∈ keys m
  · rw [keys_upsert_of_mem k v m h]
    exact h
  · rw [keys_upsert_of_not_mem k v m h]
    simp

theorem nodup_keys_upsert {V : Type} (k : String) (v : V) (m : List (String × V))
    (h : (keys m).Nodup) : (keys (upsert k v m)).Nodup := by
  by_cases hk : k ∈ keys m
  · rw [keys_upsert_of_mem k v m hk]
    exact h
  · rw [keys_upsert_of_not_mem k v m hk]
    exact List.Nodup.append h (List.nodup_singleton k) (by
      intro x hx hx2
      rw [List.mem_singleton] at hx2
      subst hx2
      exact hk hx)

theorem length_keys {V : Type} (m : List (String × V)) : (keys m).length = m.length := by
  simp [keys]

/-! ## The conversion loop -/

theorem convertEntries_nodup {A B : Type} (conv : A → Except String B) :
    ∀ (l : List (String × A)) (out : List (String × B)), (keys out).Nodup →
      (keys (convertEntries conv l out).1).Nodup := by
  intro l
  induction l with
  | nil => intro out h; exact h
  | cons x rest ih =>
    intro out h
    obtain ⟨name, a⟩ := x
    unfold convertEntries
    cases hc : conv a with
    | error e => exact h
    | ok b => exact ih _ (nodup_keys_upsert name b out h)

theorem lookupKey_none_of_not_mem {V : Type} (k : String) (m : List (String × V))
    (h : k ∉ keys m) : lookupKey k m = none := by
  induction m with
  | nil => rfl
  | cons x rest ih =>
    obtain ⟨k1, v1⟩ := x
    simp only [keys, List.map_cons, List.mem_cons, not_or] at h
    have h1 : k1 ≠ k := fun h2 => h.1 h2.symm
    simp only [lookupKey, if_neg h1]
    exact ih h.2

theorem mem_keys_of_lookupKey {V : Type} (k : String) (m : List (String × V)) (v : V)
    (h : lookupKey k m = some v) : k ∈ keys m := by
  by_contra hk
  rw [lookupKey_none_of_not_mem k m hk] at h
  exact Option.noConfusion h

theorem mem_keys_upsert_iff {V : Type} (k k2 : String) (v : V) (m : List (String × V)) :
    k2 ∈ keys (upsert k v m) ↔ k2 = k ∨ k2 ∈ keys m := by
  by_cases h : k ∈ keys m
  · rw [keys_upsert_of_mem k v m h]
    constructor
    · exact Or.inr
    · rintro (rfl | h2)
      · exact h
      · exact h2
  · rw [keys_upsert_of_not_mem k v m h, List.mem_append, List.mem_singleton]
    constructor
    · rintro (h2 | h2)
      · exact Or.inr h2
      · exact Or.inl h2
    · rintro (h2 | h2)
      · exact Or.inr h2
      · exact Or.inl h2

/-- The entries of the result of a conversion loop that completes: a key of the
converted map holds the conversion of its entry, any other key holds what it
held before. -/
theorem convertEntries_lookup {A B : Type} (conv : A → Except String B) :
    ∀ (l : List (String × A)) (out res : List (String × B)), (keys l).Nodup →
      convertEntries conv l out = (res, none) → ∀ k,
      (∀ a, lookupKey k l = some a → ∃ b, conv a = .ok b ∧ lookupKey k res = some b) ∧
      (lookupKey k l = none → lookupKey k res = lookupKey k out) := by
  intro l
  induction l with
  | nil =>
    intro out res _ h k
    simp only [convertEntries, Prod.mk.injEq, and_true] at h
    subst h
    exact ⟨fun a ha => by simp [lookupKey] at ha, fun _ => rfl⟩
  | cons x rest ih =>
    intro out res hnd h k
    obtain ⟨name, a⟩ := x
    simp only [keys, List.map_cons, List.nodup_cons] at hnd
    unfold convertEntries at h
    cases hc : conv a with
    | error e => simp [hc] at h
    | ok b =>
      simp only [hc] at h
      obtain ⟨ih1, ih2⟩ := ih (upsert name b out) res hnd.2 h k
      by_cases hk : name = k
      · subst hk
        have hrest : lookupKey name rest = none := lookupKey_none_of_not_mem name rest hnd.1
        have hres : lookupKey name res = some b := by
          rw [ih2 hrest]
          exact lookupKey_upsert_self name b out
        constructor
        · intro a1 ha1
          simp only [lookupKey, if_true, Option.some.injEq] at ha1
          subst ha1
          exact ⟨b, hc, hres⟩
        · intro hn
          simp [lookupKey] at hn
      · constructor
        · intro a1 ha1
          simp only [lookupKey, if_neg hk] at ha1
          exact ih1 a1 ha1
        · intro hn
          simp only [lookupKey, if_neg hk] at hn
          rw [ih2 hn]
          exact lookupKey_upsert_ne name k b out (fun h2 => hk h2.symm)

/-- The entries of the result of a conversion loop, completed or not: each key
holds what it held before or the conversion of its entry in the converted
map. -/
theorem convertEntries_partial {A B : Type} (conv : A → Except String B) :
    ∀ (l : List (String × A)) (out : List (String × B)), (keys l).Nodup → ∀ k,
      lookupKey k (convertEntries conv l out).1 = lookupKey k out ∨
      ∃ a b, lookupKey k l = some a ∧ conv a = .ok b ∧
        lookupKey k (convertEntries conv l out).1 = some b := by
  intro l
  induction l with
  | nil => intro out _ k; exact Or.inl rfl
  | cons x rest ih =>
    intro out hnd k
    obtain ⟨name, a⟩ := x
    simp only [keys, List.map_cons, List.nodup_cons] at hnd
    unfold convertEntries
    cases hc : conv a with
    | error e => exact Or.inl rfl
    | ok b =>
      simp only []
      rcases ih (upsert name b out) hnd.2 k with h1 | ⟨a1, b1, h1, h2, h3⟩
      · by_cases hk : name = k
        · subst hk
          right
          refine ⟨a, b, by simp [lookupKey], hc, ?_⟩
          rw [h1]
          exact lookupKey_upsert_self name b out
        · left
          rw [h1]
          exact lookupKey_upsert_ne name k b out (fun h2 => hk h2.symm)
      · right
        have hk : name ≠ k := by
          intro hk
          subst hk
          exact hnd.1 (mem_keys_of_lookupKey name rest a1 h1)
        exact ⟨a1, b1, by simp only [lookupKey, if_neg hk]; exact h1, h2, h3⟩

theorem convertEntries_mem_keys {A B : Type} (conv : A → Except String B) :
    ∀ (l : List (String × A)) (out res : List (String × B)),
      convertEntries conv l out = (res, none) → ∀ k, k ∈ keys res ↔ k ∈ keys out ∨ k ∈ keys l := by
  intro l
  induction l with
  | nil =>
    intro out res h k
    simp only [convertEntries, Prod.mk.injEq, and_true] at h
    subst h
    simp [keys]
  | cons x rest ih =>
    intro out res h k
    obtain ⟨name, a⟩ := x
    unfold convertEntries at h
    cases hc : conv a with
    | error e => simp [hc] at h
    | ok b =>
      simp only [hc] at h
      rw [ih (upsert name b out) res h k, mem_keys_upsert_iff]
      simp only [keys, List.map_cons, List.mem_cons]
      constructor
      · rintro ((h1 | h1) | h1)
        · exact Or.inr (Or.inl h1)
        · exact Or.inl h1
        · exact Or.inr (Or.inr h1)
      · rintro (h1 | h1 | h1)
        · exact Or.inl (Or.inr h1)
        · exact Or.inl (Or.inl h1)
        · exact Or.inr h1

theorem convertEntries_keys_of_subset {A B : Type} (conv : A → Except String B) :
    ∀ (l : List (String × A)) (out : List (String × B)), (∀ k ∈ keys l, k ∈ keys out) →
      keys (convertEntries conv l out).1 = keys out := by
  intro l
  induction l with
  | nil => intro out _; rfl
  | cons x rest ih =>
    intro out h
    obtain ⟨name, a⟩ := x
    have hname : name ∈ keys out := h name (by simp [keys])
    unfold convertEntries
    cases hc : conv a with
    | error e => rfl
    | ok b =>
      simp only []
      have hk := keys_upsert_of_mem name b out hname
      rw [ih (upsert name b out) (by
        intro k hk1
        rw [hk]
        exact h k (by simp only [keys, List.map_cons, List.mem_cons]; exact Or.inr hk1)), hk]

theorem convertEntries_append {A B : Type} (conv : A → Except String B) :
    ∀ (l1 l2 : List (String × A)) (out : List (String × B)),
      convertEntries conv (l1 ++ l2) out =
        match convertEntries conv l1 out with
        | (o, none) => convertEntries conv l2 o
        | (o, some e) => (o, some e) := by
  intro l1
  induction l1 with
  | nil => intro l2 out; rfl
  | cons x rest ih =>
    intro l2 out
    obtain ⟨name, a⟩ := x
    rw [List.cons_append]
    cases hc : conv a with
    | error e => simp only [convertEntries, hc]
    | ok b =>
      simp only [convertEntries, hc]
      exact ih l2 (upsert name b out)

/-! ## The handler -/

theorem isFatal_Fatal {S : Type} (rsp : RunFunctionResponse S) (err : String) :
    isFatal (Fatal rsp err) = true := by
  simp [isFatal, Fatal]

theorem desired_Fatal {S : Type} (rsp : RunFunctionResponse S) (err : String) :
    (Fatal rsp err).desired = rsp.desired := rfl

theorem setDesired_results {S U : Type} (sdk : Sdk S U) (rsp rsp1 : RunFunctionResponse S)
    (dcds : List (String × U)) (err : Option String)
    (h : SetDesiredComposedResources sdk rsp dcds = (rsp1, err)) :
    rsp1.results = rsp.results ∧
    (rsp1.desired, err) = convertEntries sdk.AsStruct dcds rsp.desired := by
  unfold SetDesiredComposedResources at h
  simp only [Prod.mk.injEq] at h
  obtain ⟨h1, h2⟩ := h
  subst h1
  subst h2
  exact ⟨rfl, rfl⟩

/-- The handler stops at the first failing step; each outcome with the steps
that led to it. -/
theorem RunFunction_cases {S U : Type} (sdk : Sdk S U) (net : Net) (req : RunFunctionRequest S) :
    (∃ e, GetObservedCompositeResource req = .error e ∧
      RunFunction sdk net req =
        (Fatal (To req)
          (Wrapf e "cannot get observed composite resource from *v1beta1.RunFunctionRequest"),
         [Event.log "Running Function"])) ∨
    ∃ xr, GetObservedCompositeResource req = .ok xr ∧
    ((∃ e, GetString xr ["spec", "nsgName"] = .error e ∧
      RunFunction sdk net req =
        (Fatal (To req) (Wrapf e ("cannot read spec.region field of " ++ GetKind xr)),
         [Event.log "Running Function"])) ∨
    ∃ n, GetString xr ["spec", "nsgName"] = .ok n ∧
    ((∃ e, GetDesiredComposedResources sdk req = .error e ∧
      RunFunction sdk net req =
        (Fatal (To req) (Wrapf e "cannot get desired resources from *v1beta1.RunFunctionRequest"),
         [Event.log "Running Function"])) ∨
    ∃ desired, GetDesiredComposedResources sdk req = .ok desired ∧
    ((∃ e, net.Get ipsURL = .error e ∧
      RunFunction sdk net req =
        (Fatal (To req) (Wrapf e "failed to fetch IP addresses from URL"),
         [Event.log "Running Function", Event.httpGet ipsURL])) ∨
    ∃ resp, net.Get ipsURL = .ok resp ∧
    ((∃ e, resp.body = .error e ∧
      RunFunction sdk net req =
        (Fatal (To req) (Wrapf e "failed to read response body"),
         [Event.log "Running Function", Event.httpGet ipsURL])) ∨
    ∃ body, resp.body = .ok body ∧
    ((∃ e, sdk.From (securityRule n (sourceAddressPrefixes body)) = .error e ∧
      RunFunction sdk net req =
        (Fatal (To req)
          (Wrapf e "cannot convert *v1beta1.SecurityRule to *composed.Unstructured"),
         [Event.log "Running Function", Event.httpGet ipsURL])) ∨
    ∃ cd, sdk.From (securityRule n (sourceAddressPrefixes body)) = .ok cd ∧
    ((∃ rsp1 e, SetDesiredComposedResources sdk (To req) (upsert (resourceName n) cd desired)
        = (rsp1, some e) ∧
      RunFunction sdk net req =
        (Fatal rsp1
          (Wrapf e "cannot set desired composed resources in *v1beta1.RunFunctionResponse"),
         [Event.log "Running Function", Event.httpGet ipsURL])) ∨
    ∃ rsp1, SetDesiredComposedResources sdk (To req) (upsert (resourceName n) cd desired)
        = (rsp1, none) ∧
      RunFunction sdk net req =
        (rsp1, [Event.log "Running Function", Event.httpGet ipsURL,
          Event.log "Added desired nsg"]))))))) := by
  cases h1 : GetObservedCompositeResource req with
  | error e => exact Or.inl ⟨e, rfl, by simp [RunFunction, h1]⟩
  | ok xr =>
    refine Or.inr ⟨xr, rfl, ?_⟩
    cases h2 : GetString xr ["spec", "nsgName"] with
    | error e => exact Or.inl ⟨e, rfl, by simp [RunFunction, h1, h2]⟩
    | ok n =>
      refine Or.inr ⟨n, rfl, ?_⟩
      cases h3 : GetDesiredComposedResources sdk req with
      | error e => exact Or.inl ⟨e, rfl, by simp [RunFunction, h1, h2, h3]⟩
      | ok desired =>
        refine Or.inr ⟨desired, rfl, ?_⟩
        cases h4 : net.Get ipsURL with
        | error e => exact Or.inl ⟨e, rfl, by simp [RunFunction, h1, h2, h3, h4]⟩
        | ok resp =>
          refine Or.inr ⟨resp, rfl, ?_⟩
          cases h5 : resp.body with
          | error e => exact Or.inl ⟨e, rfl, by simp [RunFunction, h1, h2, h3, h4, h5]⟩
          | ok body =>
            refine Or.inr ⟨body, rfl, ?_⟩
            cases h6 : sdk.From (securityRule n (sourceAddressPrefixes body)) with
            | error e => exact Or.inl ⟨e, rfl, by simp [RunFunction, h1, h2, h3, h4, h5, h6]⟩
            | ok cd =>
              refine Or.inr ⟨cd, rfl, ?_⟩
              cases h7 : SetDesiredComposedResources sdk (To req)
                  (upsert (resourceName n) cd desired) with
              | mk rsp1 err =>
                cases err with
                | some e =>
                  exact Or.inl ⟨rsp1, e, rfl, by simp [RunFunction, h1, h2, h3, h4, h5, h6, h7]⟩
                | none =>
                  exact Or.inr ⟨rsp1, rfl, by simp [RunFunction, h1, h2, h3, h4, h5, h6, h7]⟩

theorem getDesired_inv {S U : Type} (sdk : Sdk S U) (req : RunFunctionRequest S)
    (desired : List (String × U)) (h : GetDesiredComposedResources sdk req = .ok desired) :
    convertEntries sdk.AsObject req.desired [] = (desired, none) := by
  unfold GetDesiredComposedResources at h
  cases hc : convertEntries sdk.AsObject req.desired [] with
  | mk out err =>
    rw [hc] at h
    cases err with
    | none =>
      simp only [Except.ok.injEq] at h
      rw [h]
    | some e => simp at h

theorem getDesired_nodup {S U : Type} (sdk : Sdk S U) (req : RunFunctionRequest S)
    (desired : List (String × U)) (h : GetDesiredComposedResources sdk req = .ok desired) :
    (keys desired).Nodup := by
  have h1 := getDesired_inv sdk req desired h
  have h2 := convertEntries_nodup sdk.AsObject req.desired [] (by simp [keys])
  rw [h1] at h2
  exact h2

theorem getDesired_mem_keys {S U : Type} (sdk : Sdk S U) (req : RunFunctionRequest S)
    (desired : List (String × U)) (h : GetDesiredComposedResources sdk req = .ok desired) :
    ∀ k, k ∈ keys desired ↔ k ∈ keys req.desired := by
  intro k
  rw [convertEntries_mem_keys sdk.AsObject req.desired [] desired
    (getDesired_inv sdk req desired h) k]
  simp [keys]

/-- What a run that completes all steps leaves in the response. -/
theorem success_facts {S U : Type} (sdk : Sdk S U) (req : RunFunctionRequest S) (n : String)
    (cd : U) (desired : List (String × U)) (rsp1 : RunFunctionResponse S)
    (h3 : GetDesiredComposedResources sdk req = .ok desired)
    (h7 : SetDesiredComposedResources sdk (To req) (upsert (resourceName n) cd desired)
      = (rsp1, none)) :
    isFatal rsp1 = false ∧
    (∃ st, sdk.AsStruct cd = .ok st ∧ lookupKey (resourceName n) rsp1.desired = some st) ∧
    resourceName n ∈ keys rsp1.desired ∧
    (resourceName n ∈ keys req.desired → keys rsp1.desired = keys req.desired) ∧
    (resourceName n ∉ keys req.desired →
      keys rsp1.desired = keys req.desired ++ [resourceName n]) := by
  have hnd := nodup_keys_upsert (resourceName n) cd desired (getDesired_nodup sdk req desired h3)
  obtain ⟨hres, hc⟩ := setDesired_results sdk (To req) rsp1 _ none h7
  have hc1 : convertEntries sdk.AsStruct (upsert (resourceName n) cd desired) req.desired
      = (rsp1.desired, none) := hc.symm
  have hmemD := getDesired_mem_keys sdk req desired h3
  refine ⟨?_, ?_, ?_, ?_, ?_⟩
  · simp [isFatal, hres, To]
  · exact (convertEntries_lookup sdk.AsStruct _ _ _ hnd hc1 (resourceName n)).1 cd
      (lookupKey_upsert_self _ _ _)
  · rw [convertEntries_mem_keys sdk.AsStruct _ _ _ hc1]
    exact Or.inr (mem_keys_upsert _ _ _)
  · intro hmem
    have h1 := convertEntries_keys_of_subset sdk.AsStruct (upsert (resourceName n) cd desired)
      req.desired (by
        intro k hk
        rcases (mem_keys_upsert_iff _ _ _ _).1 hk with rfl | hk
        · exact hmem
        · exact (hmemD k).1 hk)
    rw [hc1] at h1
    exact h1
  · intro hmem
    have hnot : resourceName n ∉ keys desired := fun h => hmem ((hmemD _).1 h)
    rw [upsert_of_not_mem _ _ _ hnot, convertEntries_append] at hc1
    have hsub := convertEntries_keys_of_subset sdk.AsStruct desired req.desired
      (fun k hk => (hmemD k).1 hk)
    cases ho : convertEntries sdk.AsStruct desired req.desired with
    | mk o e =>
      rw [ho] at hc1 hsub
      simp only at hsub
      cases e with
      | some e1 => simp at hc1
      | none =>
        simp only [convertEntries] at hc1
        cases hcd : sdk.AsStruct cd with
        | error e2 => simp [hcd] at hc1
        | ok st =>
          simp only [hcd, Prod.mk.injEq, and_true] at hc1
          rw [← hc1, keys_upsert_of_not_mem _ _ _ (by rw [hsub]; exact hmem), hsub]

/-- A run whose result is not fatal completed all steps. -/
theorem RunFunction_success {S U : Type} (sdk : Sdk S U) (net : Net) (req : RunFunctionRequest S)
    (h : isFatal (RunFunction sdk net req).1 = false) :
    ∃ xr n desired resp body cd rsp1,
      GetObservedCompositeResource req = .ok xr ∧
      GetString xr ["spec", "nsgName"] = .ok n ∧
      GetDesiredComposedResources sdk req = .ok desired ∧
      net.Get ipsURL = .ok resp ∧ resp.body = .ok body ∧
      sdk.From (securityRule n (sourceAddressPrefixes body)) = .ok cd ∧
      SetDesiredComposedResources sdk (To req) (upsert (resourceName n) cd desired)
        = (rsp1, none) ∧
      RunFunction sdk net req =
        (rsp1, [Event.log "Running Function", Event.httpGet ipsURL,
          Event.log "Added desired nsg"]) := by
  rcases RunFunction_cases sdk net req with ⟨e, -, hr⟩ | ⟨xr, h1, ⟨e, -, hr⟩ | ⟨n, h2,
    ⟨e, -, hr⟩ | ⟨desired, h3, ⟨e, -, hr⟩ | ⟨resp, h4, ⟨e, -, hr⟩ | ⟨body, h5,
    ⟨e, -, hr⟩ | ⟨cd, h6, ⟨rsp1, e, -, hr⟩ | ⟨rsp1, h7, hr⟩⟩⟩⟩⟩⟩⟩
  all_goals first
    | exact ⟨xr, n, desired, resp, body, cd, rsp1, h1, h2, h3, h4, h5, h6, h7, hr⟩
    | (rw [hr, isFatal_Fatal] at h; exact absurd h (by decide))

theorem group_name_failure {S U : Type} (sdk : Sdk S U) (net : Net)
    (req : RunFunctionRequest S)
    (h : ∀ xr, GetObservedCompositeResource req = .ok xr →
      ∃ e, GetString xr ["spec", "nsgName"] = .error e) :
    isFatal (RunFunction sdk net req).1 = true ∧
    (RunFunction sdk net req).1.desired = req.desired ∧
    ∀ url, Event.httpGet url ∉ (RunFunction sdk net req).2 := by
  rcases RunFunction_cases sdk net req with ⟨e, h1, hr⟩ | ⟨xr, h1, ⟨e, h2, hr⟩ | ⟨n, h2, -⟩⟩
  · rw [hr]
    exact ⟨isFatal_Fatal _ _, rfl, by simp⟩
  · rw [hr]
    exact ⟨isFatal_Fatal _ _, rfl, by simp⟩
  · obtain ⟨e, he⟩ := h xr h1
    rw [h2] at he
    exact Except.noConfusion he

/-- C3: when `spec.nsgName` cannot be read as a string from the input document
(or the document itself cannot be read), `RunFunction` returns a fatal result,
the response carries the output collection of the request unchanged, and no
network fetch is performed. -/
theorem unreadable_group_name_is_fatal {S U : Type} (sdk : Sdk S U) (net : Net)
    (req : RunFunctionRequest S)
    (h : ∀ xr, GetObservedCompositeResource req = .ok xr →
      ∃ e, GetString xr ["spec", "nsgName"] = .error e) :
    isFatal (RunFunction sdk net req).1 = true ∧
    (RunFunction sdk net req).1.desired = req.desired ∧
    ∀ url, Event.httpGet url ∉ (RunFunction sdk net req).2 :=
  group_name_failure sdk net req h

theorem unreadable_group_name_is_fatal_witness :
    isFatal (RunFunction sampleSdk (sampleNet "1.2.3.4") namelessRequest).1 = true ∧
    (RunFunction sampleSdk (sampleNet "1.2.3.4") namelessRequest).1.desired
      = namelessRequest.desired ∧
    ∀ url, Event.httpGet url ∉ (RunFunction sampleSdk (sampleNet "1.2.3.4") namelessRequest).2 :=
  unreadable_group_name_is_fatal sampleSdk (sampleNet "1.2.3.4") namelessRequest
    (fun xr hxr => by
      have h1 : xr = .object [("kind", .string "XNsg"), ("spec", .object [])] :=
        (Except.ok.inj hxr).symm
      subst h1
      exact ⟨"nsgName: no such field", rfl⟩)

/-- C4: with a readable group name, if the HTTP GET fails with a transport
error, or reading the response body fails, `RunFunction` returns a fatal result
and the response carries the output collection of the request unchanged; in
particular the entry under `"xbuckets-" ++ group name` is neither inserted nor
overwritten. -/
theorem fetch_failure_is_fatal {S U : Type} (sdk : Sdk S U) (net : Net)
    (req : RunFunctionRequest S) (xr : Value) (n : String)
    (h1 : GetObservedCompositeResource req = .ok xr)
    (h2 : GetString xr ["spec", "nsgName"] = .ok n)
    (h4 : (∃ e, net.Get ipsURL = .error e) ∨
      ∃ resp e, net.Get ipsURL = .ok resp ∧ resp.body = .error e) :
    isFatal (RunFunction sdk net req).1 = true ∧
    (RunFunction sdk net req).1.desired = req.desired ∧
    lookupKey (resourceName n) (RunFunction sdk net req).1.desired
      = lookupKey (resourceName n) req.desired := by
  have key : ∃ msg ev, RunFunction sdk net req = (Fatal (To req) msg, ev) := by
    rcases RunFunction_cases sdk net req with ⟨e, g1, -⟩ | ⟨xr1, g1, ⟨e, g2, -⟩ | ⟨n, -,
      ⟨e, -, hr⟩ | ⟨desired, -, ⟨e, -, hr⟩ | ⟨resp, g4, ⟨e, -, hr⟩ | ⟨body, g5, -⟩⟩⟩⟩⟩
    · rw [h1] at g1
      exact Except.noConfusion g1
    · rw [h1] at g1
      obtain rfl := Except.ok.inj g1
      rw [h2] at g2
      exact Except.noConfusion g2
    · exact ⟨_, _, hr⟩
    · exact ⟨_, _, hr⟩
    · exact ⟨_, _, hr⟩
    · rcases h4 with ⟨e, he⟩ | ⟨resp1, e, he1, he2⟩
      · rw [g4] at he
        exact Except.noConfusion he
      · rw [g4] at he1
        obtain rfl := Except.ok.inj he1
        rw [g5] at he2
        exact Except.noConfusion he2
  obtain ⟨msg, ev, hr⟩ := key
  rw [hr]
  exact ⟨isFatal_Fatal _ _, rfl, rfl⟩

theorem fetch_failure_is_fatal_witness :
    isFatal (RunFunction sampleSdk downNet sampleRequest).1 = true ∧
    (RunFunction sampleSdk downNet sampleRequest).1.desired = sampleRequest.desired ∧
    lookupKey (resourceName "ng1") (RunFunction sampleSdk downNet sampleRequest).1.desired
      = lookupKey (resourceName "ng1") sampleRequest.desired :=
  fetch_failure_is_fatal sampleSdk downNet sampleRequest (sampleXR "ng1") "ng1" rfl rfl
    (Or.inl ⟨"dial tcp: connection refused", rfl⟩)

/-- C5: the record inserted by a successful `RunFunction` has Access `"Allow"`,
Direction `"Inbound"`, Protocol `"Tcp"`, port (SourcePortRange) `"443"` and
DestinationAddressPrefix `"20.100.33.77"`: the record built has these five
fields for every group name and every address list, and a run that is not
fatal stores the conversion of that record under `"xbuckets-" ++ group name`,
whatever the output collection held before. -/
theorem inserted_record_fixed_fields :
    (∀ (n : String) (addrs : List String),
      (securityRule n addrs).ForProvider.Access = some "Allow" ∧
      (securityRule n addrs).ForProvider.Direction = some "Inbound" ∧
      (securityRule n addrs).ForProvider.Protocol = some "Tcp" ∧
      (securityRule n addrs).ForProvider.SourcePortRange = some "443" ∧
      (securityRule n addrs).ForProvider.DestinationAddressPrefix = some "20.100.33.77") ∧
    (∀ (S U : Type) (sdk : Sdk S U) (net : Net) (req : RunFunctionRequest S),
      isFatal (RunFunction sdk net req).1 = false →
      ∃ xr n resp body cd st,
        GetObservedCompositeResource req = .ok xr ∧
        GetString xr ["spec", "nsgName"] = .ok n ∧
        net.Get ipsURL = .ok resp ∧ resp.body = .ok body ∧
        sdk.From (securityRule n (sourceAddressPrefixes body)) = .ok cd ∧
        sdk.AsStruct cd = .ok st ∧
        lookupKey (resourceName n) (RunFunction sdk net req).1.desired = some st) := by
  refine ⟨fun n addrs => ⟨rfl, rfl, rfl, rfl, rfl⟩, ?_⟩
  intro S U sdk net req h
  obtain ⟨xr, n, desired, resp, body, cd, rsp1, h1, h2, h3, h4, h5, h6, h7, hr⟩ :=
    RunFunction_success sdk net req h
  obtain ⟨-, ⟨st, hst, hl⟩, -, -, -⟩ := success_facts sdk req n cd desired rsp1 h3 h7
  rw [hr]
  exact ⟨xr, n, resp, body, cd, st, h1, h2, h4, h5, h6, hst, hl⟩

theorem inserted_record_fixed_fields_witness :
    ∃ xr n resp body cd st,
      GetObservedCompositeResource sampleRequest = .ok xr ∧
      GetString xr ["spec", "nsgName"] = .ok n ∧
      (sampleNet "1.2.3.4 and 5.6.7.8 end").Get ipsURL = .ok resp ∧ resp.body = .ok body ∧
      sampleSdk.From (securityRule n (sourceAddressPrefixes body)) = .ok cd ∧
      sampleSdk.AsStruct cd = .ok st ∧
      lookupKey (resourceName n)
        (RunFunction sampleSdk (sampleNet "1.2.3.4 and 5.6.7.8 end") sampleRequest).1.desired
        = some st :=
  inserted_record_fixed_fields.2 String SampleObject sampleSdk
    (sampleNet "1.2.3.4 and 5.6.7.8 end") sampleRequest (by decide)

/-- C2: a successful `RunFunction` for the group name `n` stores its record
under the key `"xbuckets-" ++ n` (for `"ng1"` the key is `"xbuckets-ng1"`), a
function of `n` alone; a second successful run for the same `n` on the
collection produced by the first run replaces that entry: the second result has
the same keys and the same number of entries as the first. -/
theorem same_name_replaces_entry {S U : Type} (sdk : Sdk S U) (net net2 : Net)
    (req req2 : RunFunctionRequest S) (xr xr2 : Value) (n : String)
    (h1 : GetObservedCompositeResource req = .ok xr)
    (h2 : GetString xr ["spec", "nsgName"] = .ok n)
    (hok : isFatal (RunFunction sdk net req).1 = false)
    (k1 : GetObservedCompositeResource req2 = .ok xr2)
    (k2 : GetString xr2 ["spec", "nsgName"] = .ok n)
    (kd : req2.desired = (RunFunction sdk net req).1.desired)
    (kok : isFatal (RunFunction sdk net2 req2).1 = false) :
    resourceName "ng1" = "xbuckets-ng1" ∧
    resourceName n = "xbuckets-" ++ n ∧
    (∃ resp body cd st, net.Get ipsURL = .ok resp ∧ resp.body = .ok body ∧
      sdk.From (securityRule n (sourceAddressPrefixes body)) = .ok cd ∧
      sdk.AsStruct cd = .ok st ∧
      lookupKey (resourceName n) (RunFunction sdk net req).1.desired = some st) ∧
    resourceName n ∈ keys (RunFunction sdk net req).1.desired ∧
    (∃ resp body cd st, net2.Get ipsURL = .ok resp ∧ resp.body = .ok body ∧
      sdk.From (securityRule n (sourceAddressPrefixes body)) = .ok cd ∧
      sdk.AsStruct cd = .ok st ∧
      lookupKey (resourceName n) (RunFunction sdk net2 req2).1.desired = some st) ∧
    keys (RunFunction sdk net2 req2).1.desired = keys (RunFunction sdk net req).1.desired ∧
    (RunFunction sdk net2 req2).1.desired.length = (RunFunction sdk net req).1.desired.length := by
  obtain ⟨xr1, n1, desired, resp, body, cd, rsp1, g1, g2, g3, g4, g5, g6, g7, hr⟩ :=
    RunFunction_success sdk net req hok
  rw [h1] at g1
  obtain rfl := Except.ok.inj g1
  rw [h2] at g2
  obtain rfl := Except.ok.inj g2
  obtain ⟨xr3, n3, desired2, resp2, body2, cd2, rsp2, j1, j2, j3, j4, j5, j6, j7, hr2⟩ :=
    RunFunction_success sdk net2 req2 kok
  rw [k1] at j1
  obtain rfl := Except.ok.inj j1
  rw [k2] at j2
  obtain rfl := Except.ok.inj j2
  obtain ⟨-, ⟨st, a5, a6⟩, hmem1, -, -⟩ := success_facts sdk req n cd desired rsp1 g3 g7
  obtain ⟨-, ⟨st2, b5, b6⟩, -, b3, -⟩ := success_facts sdk req2 n cd2 desired2 rsp2 j3 j7
  rw [hr] at kd
  simp only at kd
  have hkeys : keys rsp2.desired = keys rsp1.desired := by
    rw [b3 (by rw [kd]; exact hmem1), kd]
  rw [hr, hr2]
  refine ⟨by decide, rfl, ⟨resp, body, cd, st, g4, g5, g6, a5, a6⟩, hmem1,
    ⟨resp2, body2, cd2, st2, j4, j5, j6, b5, b6⟩, hkeys, ?_⟩
  rw [← length_keys rsp2.desired, hkeys, length_keys]

theorem same_name_replaces_entry_witness :
    resourceName "ng1" = "xbuckets-ng1" ∧
    resourceName "ng1" = "xbuckets-" ++ "ng1" ∧
    (∃ resp body cd st, (sampleNet "1.2.3.4 x").Get ipsURL = .ok resp ∧ resp.body = .ok body ∧
      sampleSdk.From (securityRule "ng1" (sourceAddressPrefixes body)) = .ok cd ∧
      sampleSdk.AsStruct cd = .ok st ∧
      lookupKey (resourceName "ng1")
        (RunFunction sampleSdk (sampleNet "1.2.3.4 x") freshRequest).1.desired = some st) ∧
    resourceName "ng1" ∈ keys (RunFunction sampleSdk (sampleNet "1.2.3.4 x") freshRequest).1.desired ∧
    (∃ resp body cd st, (sampleNet "5.6.7.8").Get ipsURL = .ok resp ∧ resp.body = .ok body ∧
      sampleSdk.From (securityRule "ng1" (sourceAddressPrefixes body)) = .ok cd ∧
      sampleSdk.AsStruct cd = .ok st ∧
      lookupKey (resourceName "ng1")
        (RunFunction sampleSdk (sampleNet "5.6.7.8")
          { observed := .ok (sampleXR "ng1")
            desired := (RunFunction sampleSdk (sampleNet "1.2.3.4 x") freshRequest).1.desired }
          ).1.desired = some st) ∧
    keys (RunFunction sampleSdk (sampleNet "5.6.7.8")
        { observed := .ok (sampleXR "ng1")
          desired := (RunFunction sampleSdk (sampleNet "1.2.3.4 x") freshRequest).1.desired }
        ).1.desired
      = keys (RunFunction sampleSdk (sampleNet "1.2.3.4 x") freshRequest).1.desired ∧
    (RunFunction sampleSdk (sampleNet "5.6.7.8")
        { observed := .ok (sampleXR "ng1")
          desired := (RunFunction sampleSdk (sampleNet "1.2.3.4 x") freshRequest).1.desired }
        ).1.desired.length
      = (RunFunction sampleSdk (sampleNet "1.2.3.4 x") freshRequest).1.desired.length :=
  same_name_replaces_entry sampleSdk (sampleNet "1.2.3.4 x") (sampleNet "5.6.7.8") freshRequest
    { observed := .ok (sampleXR "ng1")
      desired := (RunFunction sampleSdk (sampleNet "1.2.3.4 x") freshRequest).1.desired }
    (sampleXR "ng1") (sampleXR "ng1") "ng1" rfl rfl (by decide) rfl rfl rfl (by decide)

/-- C9 as stated fails when persisting the updated collection fails after an
entry has been assigned: the five earlier steps succeed,
`SetDesiredComposedResources` assigns the re-converted `other` and then fails
on the new record (Go leaves the visiting order open; this is the outcome when
`other` is visited first), the result is fatal, and the response carries
`other` without the connection details the request had. -/
theorem persistence_failure_leaves_partial_update :
    GetObservedCompositeResource detailedRequest = .ok (sampleXR "ng1") ∧
    GetString (sampleXR "ng1") ["spec", "nsgName"] = .ok "ng1" ∧
    GetDesiredComposedResources lossyStrictSdk detailedRequest
      = .ok [("other", .decoded "kept")] ∧
    (sampleNet "1.2.3.4").Get ipsURL = .ok { body := .ok "1.2.3.4" } ∧
    lossyStrictSdk.From (securityRule "ng1" (sourceAddressPrefixes "1.2.3.4"))
      = .ok (.rule (securityRule "ng1" ["1.2.3.4"])) ∧
    (SetDesiredComposedResources lossyStrictSdk (To detailedRequest)
      (upsert ("xbuckets-" ++ "ng1") (.rule (securityRule "ng1" ["1.2.3.4"]))
        [("other", .decoded "kept")])).2
      = some "cannot create new Struct" ∧
    isFatal (RunFunction lossyStrictSdk (sampleNet "1.2.3.4") detailedRequest).1 = true ∧
    detailedRequest.desired = [("other", ("kept", true))] ∧
    (RunFunction lossyStrictSdk (sampleNet "1.2.3.4") detailedRequest).1.desired
      = [("other", ("kept", false))] ∧
    (RunFunction lossyStrictSdk (sampleNet "1.2.3.4") detailedRequest).1.desired
      ≠ detailedRequest.desired := by
  refine ⟨rfl, rfl, rfl, rfl, ?_, ?_, by decide, rfl, by decide, by decide⟩
  · have h : sourceAddressPrefixes "1.2.3.4" = ["1.2.3.4"] := by decide
    rw [h]
    rfl
  · rfl

/-- C9, amended: `RunFunction` stops at the first failing step in the order:
read the group name, read the output collection, HTTP GET, read the body,
serialize the record, persist the collection.  Each of these failures gives a
fatal result that names the step.  When one of the first five fails, the
response carries the output collection of the request unchanged (and the first
two issue no HTTP request).  When persisting fails, each key of the response
holds either what the request held under it or the conversion of the entry the
updated collection has under it: the entries assigned before the failing one
stay assigned.  The result is non-fatal only if all six steps succeed. -/
theorem first_failing_step_is_fatal {S U : Type} (sdk : Sdk S U) (net : Net)
    (req : RunFunctionRequest S) :
    ((∀ xr, GetObservedCompositeResource req = .ok xr →
        ∃ e, GetString xr ["spec", "nsgName"] = .error e) →
      isFatal (RunFunction sdk net req).1 = true ∧
      (RunFunction sdk net req).1.desired = req.desired ∧
      ∀ url, Event.httpGet url ∉ (RunFunction sdk net req).2) ∧
    (∀ xr n e, GetObservedCompositeResource req = .ok xr →
      GetString xr ["spec", "nsgName"] = .ok n →
      GetDesiredComposedResources sdk req = .error e →
      isFatal (RunFunction sdk net req).1 = true ∧
      (RunFunction sdk net req).1.desired = req.desired ∧
      (RunFunction sdk net req).1.results
        = [{ severity := .fatal,
             message := Wrapf e "cannot get desired resources from *v1beta1.RunFunctionRequest" }] ∧
      ∀ url, Event.httpGet url ∉ (RunFunction sdk net req).2) ∧
    (∀ xr n desired e, GetObservedCompositeResource req = .ok xr →
      GetString xr ["spec", "nsgName"] = .ok n →
      GetDesiredComposedResources sdk req = .ok desired →
      net.Get ipsURL = .error e →
      isFatal (RunFunction sdk net req).1 = true ∧
      (RunFunction sdk net req).1.desired = req.desired ∧
      (RunFunction sdk net req).1.results
        = [{ severity := .fatal, message := Wrapf e "failed to fetch IP addresses from URL" }]) ∧
    (∀ xr n desired resp e, GetObservedCompositeResource req = .ok xr →
      GetString xr ["spec", "nsgName"] = .ok n →
      GetDesiredComposedResources sdk req = .ok desired →
      net.Get ipsURL = .ok resp → resp.body = .error e →
      isFatal (RunFunction sdk net req).1 = true ∧
      (RunFunction sdk net req).1.desired = req.desired ∧
      (RunFunction sdk net req).1.results
        = [{ severity := .fatal, message := Wrapf e "failed to read response body" }]) ∧
    (∀ xr n desired resp body e, GetObservedCompositeResource req = .ok xr →
      GetString xr ["spec", "nsgName"] = .ok n →
      GetDesiredComposedResources sdk req = .ok desired →
      net.Get ipsURL = .ok resp → resp.body = .ok body →
      sdk.From (securityRule n (sourceAddressPrefixes body)) = .error e →
      isFatal (RunFunction sdk net req).1 = true ∧
      (RunFunction sdk net req).1.desired = req.desired ∧
      (RunFunction sdk net req).1.results
        = [{ severity := .fatal,
             message :=
               Wrapf e "cannot convert *v1beta1.SecurityRule to *composed.Unstructured" }]) ∧
    (∀ xr n desired resp body cd rsp1 e, GetObservedCompositeResource req = .ok xr →
      GetString xr ["spec", "nsgName"] = .ok n →
      GetDesiredComposedResources sdk req = .ok desired →
      net.Get ipsURL = .ok resp → resp.body = .ok body →
      sdk.From (securityRule n (sourceAddressPrefixes body)) = .ok cd →
      SetDesiredComposedResources sdk (To req) (upsert ("xbuckets-" ++ n) cd desired)
        = (rsp1, some e) →
      isFatal (RunFunction sdk net req).1 = true ∧
      (RunFunction sdk net req).1.results
        = [{ severity := .fatal,
             message :=
               Wrapf e "cannot set desired composed resources in *v1beta1.RunFunctionResponse" }] ∧
      ∀ k, lookupKey k (RunFunction sdk net req).1.desired = lookupKey k req.desired ∨
        ∃ u st, lookupKey k (upsert ("xbuckets-" ++ n) cd desired) = some u ∧
          sdk.AsStruct u = .ok st ∧
          lookupKey k (RunFunction sdk net req).1.desired = some st) ∧
    (isFatal (RunFunction sdk net req).1 = false →
      ∃ xr n desired resp body cd rsp1,
        GetObservedCompositeResource req = .ok xr ∧
        GetString xr ["spec", "nsgName"] = .ok n ∧
        GetDesiredComposedResources sdk req = .ok desired ∧
        net.Get ipsURL = .ok resp ∧ resp.body = .ok body ∧
        sdk.From (securityRule n (sourceAddressPrefixes body)) = .ok cd ∧
        SetDesiredComposedResources sdk (To req) (upsert ("xbuckets-" ++ n) cd desired)
          = (rsp1, none)) := by
  refine ⟨group_name_failure sdk net req, ?_, ?_, ?_, ?_, ?_, ?_⟩
  · intro xr n e h1 h2 h3
    have hr : RunFunction sdk net req
        = (Fatal (To req) (Wrapf e "cannot get desired resources from *v1beta1.RunFunctionRequest"),
           [Event.log "Running Function"]) := by
      simp [RunFunction, h1, h2, h3]
    rw [hr]
    exact ⟨isFatal_Fatal _ _, rfl, rfl, by simp⟩
  · intro xr n desired e h1 h2 h3 h4
    have hr : RunFunction sdk net req
        = (Fatal (To req) (Wrapf e "failed to fetch IP addresses from URL"),
           [Event.log "Running Function", Event.httpGet ipsURL]) := by
      simp [RunFunction, h1, h2, h3, h4]
    rw [hr]
    exact ⟨isFatal_Fatal _ _, rfl, rfl⟩
  · intro xr n desired resp e h1 h2 h3 h4 h5
    have hr : RunFunction sdk net req
        = (Fatal (To req) (Wrapf e "failed to read response body"),
           [Event.log "Running Function", Event.httpGet ipsURL]) := by
      simp [RunFunction, h1, h2, h3, h4, h5]
    rw [hr]
    exact ⟨isFatal_Fatal _ _, rfl, rfl⟩
  · intro xr n desired resp body e h1 h2 h3 h4 h5 h6
    have hr : RunFunction sdk net req
        = (Fatal (To req)
            (Wrapf e "cannot convert *v1beta1.SecurityRule to *composed.Unstructured"),
           [Event.log "Running Function", Event.httpGet ipsURL]) := by
      simp [RunFunction, h1, h2, h3, h4, h5, h6]
    rw [hr]
    exact ⟨isFatal_Fatal _ _, rfl, rfl⟩
  · intro xr n desired resp body cd rsp1 e h1 h2 h3 h4 h5 h6 h7
    have h7a : SetDesiredComposedResources sdk (To req) (upsert (resourceName n) cd desired)
        = (rsp1, some e) := h7
    have hr : RunFunction sdk net req
        = (Fatal rsp1
            (Wrapf e "cannot set desired composed resources in *v1beta1.RunFunctionResponse"),
           [Event.log "Running Function", Event.httpGet ipsURL]) := by
      simp [RunFunction, h1, h2, h3, h4, h5, h6, h7a]
    obtain ⟨g1, g2⟩ := setDesired_results sdk (To req) rsp1 _ (some e) h7
    have hnd1 := nodup_keys_upsert ("xbuckets-" ++ n) cd desired
      (getDesired_nodup sdk req desired h3)
    have hp := convertEntries_partial sdk.AsStruct (upsert ("xbuckets-" ++ n) cd desired)
      req.desired hnd1
    have hd : rsp1.desired
        = (convertEntries sdk.AsStruct (upsert ("xbuckets-" ++ n) cd desired) req.desired).1 := by
      have := congrArg Prod.fst g2
      exact this
    rw [hr]
    refine ⟨isFatal_Fatal _ _, ?_, ?_⟩
    · simp [Fatal, g1, To]
    · intro k
      rw [desired_Fatal, hd]
      rcases hp k with h | ⟨u, st, hu, hst, h⟩
      · exact Or.inl h
      · exact Or.inr ⟨u, st, hu, hst, h⟩
  · intro hok
    obtain ⟨xr, n, desired, resp, body, cd, rsp1, h1, h2, h3, h4, h5, h6, h7, -⟩ :=
      RunFunction_success sdk net req hok
    exact ⟨xr, n, desired, resp, body, cd, rsp1, h1, h2, h3, h4, h5, h6, h7⟩

theorem first_failing_step_is_fatal_witness :
    (isFatal (RunFunction lossyStrictSdk (sampleNet "1.2.3.4") detailedRequest).1 = true ∧
      (RunFunction lossyStrictSdk (sampleNet "1.2.3.4") detailedRequest).1.results
        = [{ severity := .fatal,
             message := Wrapf "cannot create new Struct"
               "cannot set desired composed resources in *v1beta1.RunFunctionResponse" }] ∧
      ∀ k, lookupKey k (RunFunction lossyStrictSdk (sampleNet "1.2.3.4") detailedRequest).1.desired
          = lookupKey k detailedRequest.desired ∨
        ∃ u st, lookupKey k (upsert ("xbuckets-" ++ "ng1")
            (.rule (securityRule "ng1" ["1.2.3.4"])) [("other", .decoded "kept")]) = some u ∧
          lossyStrictSdk.AsStruct u = .ok st ∧
          lookupKey k (RunFunction lossyStrictSdk (sampleNet "1.2.3.4") detailedRequest).1.desired
            = some st) ∧
    (isFatal (RunFunction sampleSdk downNet freshRequest).1 = true ∧
      (RunFunction sampleSdk downNet freshRequest).1.desired = freshRequest.desired ∧
      (RunFunction sampleSdk downNet freshRequest).1.results
        = [{ severity := .fatal,
             message := Wrapf "dial tcp: connection refused"
               "failed to fetch IP addresses from URL" }]) :=
  ⟨(first_failing_step_is_fatal lossyStrictSdk (sampleNet "1.2.3.4") detailedRequest).2.2.2.2.2.1
      (sampleXR "ng1") "ng1" [("other", .decoded "kept")] { body := .ok "1.2.3.4" } "1.2.3.4"
      (.rule (securityRule "ng1" ["1.2.3.4"]))
      { desired := [("other", ("kept", false))], results := [] } "cannot create new Struct"
      rfl rfl rfl rfl rfl
      (by
        have h : sourceAddressPrefixes "1.2.3.4" = ["1.2.3.4"] := by decide
        rw [h]
        rfl)
      rfl,
   (first_failing_step_is_fatal sampleSdk downNet freshRequest).2.2.1
      (sampleXR "ng1") "ng1" [("other", .decoded "kept")] "dial tcp: connection refused"
      rfl rfl rfl rfl⟩

end NsgFunction
